import Mathlib

/-!
# Verification of the quota & subscription state engine

Shallow embedding of the quota service (`src/services/quotaService.ts`,
provided as `src/unnamed/part_000`) and plan catalog (`src/config/quotaConfig.ts`)
of the `aiorealbackend` repository, together with proofs of the spec's
testable properties.

Modelling conventions:
* The document store is a record of per-collection maps (functions from
  document id to optional document for point-keyed collections; a list for
  `quota_wallets`, which is queried by secondary index).
* All timestamps are the UTC ISO-8601 strings the source stores. The source
  compares them after `new Date(...)` parsing; since normalized ISO-8601 UTC
  strings of equal format compare identically lexicographically and
  chronologically, date comparison is modelled as string order.
* JavaScript machine numbers holding quota counters and amounts are modelled
  as `Int` (all values reached in this service are small integers).
* JavaScript `null | undefined` fields are modelled as `Option`; string
  truthiness tests (`if (!x)`) additionally treat `some ""` as falsy where the
  source applies them to strings.
* Store-assigned wallet document ids are modelled by a counter in the store.
-/

namespace Quota

/-- `'monthly' | 'yearly'` from `quotaConfig.ts`. -/
inductive PlanCycle where
  | monthly
  | yearly
deriving DecidableEq, Repr

/-- `SubscriptionStatus` union type of `quotaService.ts`. -/
inductive SubscriptionStatus where
  | active
  | cancelled
  | expired
  | refunded
  | billing_issue
deriving DecidableEq, Repr

/-- `WalletStatus` union type of `quotaService.ts`. -/
inductive WalletStatus where
  | active
  | closed
deriving DecidableEq, Repr

/-- `UsageStatus` union type of `quotaService.ts`. -/
inductive UsageStatus where
  | reserved
  | committed
  | rolled_back
deriving DecidableEq, Repr

/-- Status component of `ReserveResult`: `UsageStatus | 'rejected'`. -/
inductive ReserveStatus where
  | reserved
  | committed
  | rolled_back
  | rejected
deriving DecidableEq, Repr

/-- Injection of a usage status into the reserve-result status union. -/
def UsageStatus.toReserve : UsageStatus → ReserveStatus
  | .reserved => .reserved
  | .committed => .committed
  | .rolled_back => .rolled_back

/-- The string stored for a subscription status (used as a wallet close reason). -/
def SubscriptionStatus.str : SubscriptionStatus → String
  | .active => "active"
  | .cancelled => "cancelled"
  | .expired => "expired"
  | .refunded => "refunded"
  | .billing_issue => "billing_issue"

/-- `PlanConfig` from `quotaConfig.ts`. -/
structure PlanConfig where
  planId : String
  planKey : String
  cycle : PlanCycle
  quota : Int
  productIds : List String
deriving DecidableEq, Repr

/-- `DEFAULT_PLAN_CONFIG` from `quotaConfig.ts` (no environment override). -/
def PLAN_CONFIG : List PlanConfig :=
  [ { planId := "free", planKey := "free", cycle := .monthly, quota := 2,
      productIds := [] },
    { planId := "premium_monthly", planKey := "base", cycle := .monthly, quota := 100,
      productIds := ["ai_or_real_premium:aiorreal-monthly", "aiorreal-monthly"] },
    { planId := "premium_yearly", planKey := "pro", cycle := .yearly, quota := 1000,
      productIds := ["ai_or_real_premium:aiorreal-yearly", "aiorreal-yearly"] } ]

/-- Whether `pat` is a leading segment of `l` (character list version of
JavaScript `String.prototype.startsWith`). -/
def leadsList : List Char → List Char → Bool
  | [], _ => true
  | _ :: _, [] => false
  | a :: as, b :: bs => a == b && leadsList as bs

/-- Whether `pat` occurs contiguously inside `l`
(JavaScript `String.prototype.includes` on character lists). -/
def includesList (pat : List Char) : List Char → Bool
  | [] => leadsList pat []
  | b :: bs => leadsList pat (b :: bs) || includesList pat bs

/-- JavaScript `s.includes(pat)`. -/
def strIncludes (s pat : String) : Bool :=
  includesList pat.data s.data

/-- ASCII lower-casing of one character (the source's inputs are ASCII, on
which JavaScript `toLowerCase` acts this way). -/
def charLower (c : Char) : Char :=
  if 65 ≤ c.toNat ∧ c.toNat ≤ 90 then Char.ofNat (c.toNat + 32) else c

/-- ASCII upper-casing of one character. -/
def charUpper (c : Char) : Char :=
  if 97 ≤ c.toNat ∧ c.toNat ≤ 122 then Char.ofNat (c.toNat - 32) else c

/-- JavaScript `s.toLowerCase()` (ASCII range). -/
def strLower (s : String) : String :=
  ⟨s.data.map charLower⟩

/-- JavaScript `s.toUpperCase()` (ASCII range). -/
def strUpper (s : String) : String :=
  ⟨s.data.map charUpper⟩

/-- ASCII whitespace, as trimmed by JavaScript `trim()` on these inputs. -/
def isWS (c : Char) : Bool :=
  c == ' ' || c == '\t' || c == '\n' || c == '\r'

/-- JavaScript `s.trim()`. -/
def strTrim (s : String) : String :=
  ⟨((s.data.dropWhile isWS).reverse.dropWhile isWS).reverse⟩

/-- Lexicographic order on character lists. -/
def ltList : List Char → List Char → Bool
  | [], [] => false
  | [], _ :: _ => true
  | _ :: _, [] => false
  | a :: as, b :: bs => a < b || (a == b && ltList as bs)

/-- Strict order on strings (lexicographic, hence chronological on the
normalized ISO-8601 UTC timestamps this model compares). -/
def strLt (a b : String) : Bool :=
  ltList a.data b.data

/-- JavaScript string truthiness for a nullable string: `null`, `undefined`
and `""` are falsy. -/
def jsTruthy : Option String → Bool
  | none => false
  | some s => s != ""

/-- `a ?? b` (nullish coalescing) on optional values. -/
def orOpt {α : Type} : Option α → Option α → Option α
  | some a, _ => some a
  | none, b => b

/-- `getPlanConfigById` from `quotaConfig.ts`. -/
def getPlanConfigById (planId : Option String) : Option PlanConfig :=
  match planId with
  | none => none
  | some pid =>
    if pid = "" then none
    else
      let normalized := strTrim (strLower pid)
      PLAN_CONFIG.find? (fun plan => strLower plan.planId == normalized)

/-- `resolvePlanConfig` from `quotaConfig.ts`. -/
def resolvePlanConfig (candidate : Option String) : Option PlanConfig :=
  match candidate with
  | none => none
  | some c =>
    if c = "" then none
    else
      let normalized := strTrim (strLower c)
      if normalized = "" then none
      else if strIncludes normalized "aiorreal-monthly" then
        getPlanConfigById (some "premium_monthly")
      else if strIncludes normalized "aiorreal-yearly"
          || strIncludes normalized "aiorreal-annual" then
        getPlanConfigById (some "premium_yearly")
      else
        match PLAN_CONFIG.find? (fun plan => strLower plan.planId == normalized) with
        | some plan => some plan
        | none =>
          PLAN_CONFIG.find?
            (fun plan => plan.productIds.any (fun pid => strIncludes normalized (strLower pid)))

/-- `SubscriptionDoc` from `quotaService.ts`. -/
structure SubscriptionDoc where
  id : String
  user_id : String
  platform : Option String
  rc_app_user_id : Option String
  product_id : Option String
  plan_id : Option String
  plan_key : Option String
  cycle : Option PlanCycle
  entitlement_ids : List String
  is_active : Bool
  will_renew : Bool
  status : SubscriptionStatus
  current_period_start : Option String
  current_period_end : Option String
  last_rc_event_at : Option String
  original_purchase_date : Option String
  updated_at : String
  created_at : String
deriving DecidableEq, Repr

/-- `QuotaWalletDoc` from `quotaService.ts`. The `closed_reason` field is not
in the declared type but is written by `closeWalletsForUser`'s batch update. -/
structure QuotaWalletDoc where
  id : String
  user_id : String
  subscription_id : Option String
  plan_id : Option String
  scope : PlanCycle
  period_start : Option String
  period_end : Option String
  quota_total : Int
  quota_used : Int
  status : WalletStatus
  last_usage_at : Option String
  created_at : String
  updated_at : String
  closed_reason : Option String
deriving DecidableEq, Repr

/-- `QuotaUsageDoc` from `quotaService.ts`. -/
structure QuotaUsageDoc where
  id : String
  user_id : String
  wallet_id : String
  request_id : String
  action : String
  amount : Int
  status : UsageStatus
  created_at : String
  updated_at : String
deriving DecidableEq, Repr

/-- Status of a `webhook_events` document: `'received' | 'processed'`. -/
inductive WebhookStatus where
  | received
  | processed
deriving DecidableEq, Repr

/-- Document written to the `webhook_events` collection by
`processRevenueCatEvent`. The raw event is kept as its serialized form. -/
structure WebhookEventDoc where
  id : String
  rc_event_id : String
  event_type : String
  rc_app_user_id : Option String
  received_at : String
  processed_at : Option String
  payload_json : String
  status : WebhookStatus
deriving DecidableEq, Repr

/-- `ReserveResult` from `quotaService.ts` (the optional `quota` snapshot field
is never populated by `reserveUsage` and is omitted). -/
structure ReserveResult where
  allowed : Bool
  status : ReserveStatus
  remaining : Int
  walletId : Option String
deriving DecidableEq, Repr

/-- `RevenueCatEventContext` from `quotaService.ts`; `rawEvent` is modelled by
its JSON serialization, which is all `processRevenueCatEvent` uses. -/
structure RevenueCatEventContext where
  userId : String
  eventId : Option String
  eventType : String
  rcAppUserId : Option String
  productId : Option String
  entitlementIds : List String
  platform : Option String
  willRenew : Option Bool
  periodStart : Option String
  periodEnd : Option String
  originalPurchaseDate : Option String
  rawEvent : String
deriving DecidableEq, Repr

/-- The document store visible to the quota service: the four collections the
claims touch, plus a counter modelling store-assigned wallet document ids. -/
structure Store where
  subscriptions : String → Option SubscriptionDoc
  wallets : List QuotaWalletDoc
  usages : String → Option QuotaUsageDoc
  webhookEvents : String → Option WebhookEventDoc
  nextWalletId : Nat

/-- Document id of the usage record: `` `${userId}_${requestId}` ``. -/
def usageKey (userId requestId : String) : String :=
  userId ++ "_" ++ requestId

/-- Point read of a wallet document by id (`tx.get(walletRef)`). -/
def findWallet (s : Store) (wid : String) : Option QuotaWalletDoc :=
  s.wallets.find? (fun w => w.id == wid)

/-- Wallet document update by id (`tx.update(walletRef, ...)`). -/
def updateWalletById (s : Store) (wid : String) (f : QuotaWalletDoc → QuotaWalletDoc) :
    Store :=
  { s with wallets := s.wallets.map (fun w => if w.id == wid then f w else w) }

/-- Write of a usage document (`tx.set(usageRef, ...)`). -/
def setUsage (s : Store) (k : String) (d : QuotaUsageDoc) : Store :=
  { s with usages := fun k' => if k' = k then some d else s.usages k' }

/-- The `orderBy('period_end', 'desc')` key: ISO strings compare by string
order; a `null` field sorts last in descending order. -/
def endLater (a b : Option String) : Bool :=
  match a, b with
  | some x, some y => strLt y x
  | some _, none => true
  | none, _ => false

/-- Accumulator step selecting the first document of the descending
`period_end` ordering. -/
def pickLater (acc : Option QuotaWalletDoc) (w : QuotaWalletDoc) : Option QuotaWalletDoc :=
  match acc with
  | none => some w
  | some b => if endLater w.period_end b.period_end then some w else some b

/-- Filter of the `getActiveWallet` query: `user_id == userId`, `status == 'active'`. -/
def isActiveWalletFor (u : String) (w : QuotaWalletDoc) : Bool :=
  w.user_id == u && w.status == WalletStatus.active

/-- `getActiveWallet` from `quotaService.ts`: indexed query for the user's
active wallet with the greatest `period_end` (limit 1). -/
def getActiveWallet (s : Store) (u : String) : Option QuotaWalletDoc :=
  (s.wallets.filter (isActiveWalletFor u)).foldl pickLater none

/-- `closeWalletsForUser` from `quotaService.ts`: batch-close every active
wallet of the user. -/
def closeWalletsForUser (s : Store) (nowIso : String) (u : String)
    (reason : String) (setRemainingToZero : Bool) : Store :=
  { s with wallets := s.wallets.map (fun w =>
      if isActiveWalletFor u w then
        { w with status := .closed
                 updated_at := nowIso
                 quota_used := if setRemainingToZero then w.quota_total else w.quota_used
                 closed_reason := some reason }
      else w) }

/-- The `n`-th store-assigned wallet document id. The store assigns opaque
fresh ids; they are modelled as strings of strictly increasing length so that
freshness is a consequence of the id's length (`7 + n`). -/
def freshWalletId (n : Nat) : String :=
  "wallet_" ++ String.mk (List.replicate n 'w')

/-- `openWalletForSubscription` from `quotaService.ts`. The store-assigned
document id is modelled with the store's counter. -/
def openWalletForSubscription (s : Store) (nowIso : String)
    (subscription : SubscriptionDoc) (closeExisting : Bool) :
    Option QuotaWalletDoc × Store :=
  match getPlanConfigById subscription.plan_id with
  | none => (none, s)
  | some planConfig =>
    let s1 :=
      if closeExisting then
        closeWalletsForUser s nowIso subscription.user_id "plan_change" false
      else s
    let wallet : QuotaWalletDoc :=
      { id := freshWalletId s1.nextWalletId
        user_id := subscription.user_id
        subscription_id := some subscription.id
        plan_id := subscription.plan_id
        scope := planConfig.cycle
        period_start := subscription.current_period_start
        period_end := subscription.current_period_end
        quota_total := planConfig.quota
        quota_used := 0
        status := .active
        last_usage_at := none
        created_at := nowIso
        updated_at := nowIso
        closed_reason := none }
    (some wallet, { s1 with wallets := s1.wallets ++ [wallet]
                            nextWalletId := s1.nextWalletId + 1 })

/-- `ensureActiveWallet` from `quotaService.ts`. The effective end of the
existing wallet is `wallet.period_end ?? subscription.current_period_end`
(`null` and `""` period strings parse to no usable date and are skipped). -/
def ensureActiveWallet (s : Store) (nowIso : String) (userId : String)
    (subscription : SubscriptionDoc) : Option QuotaWalletDoc × Store :=
  if !subscription.is_active then (none, s)
  else
    match getPlanConfigById subscription.plan_id with
    | none => (none, s)
    | some _ =>
      let existingWallet := getActiveWallet s userId
      let currentEnd := if jsTruthy subscription.current_period_end
        then subscription.current_period_end else none
      let keep :=
        match existingWallet with
        | none => false
        | some w =>
          let walletEnd := if jsTruthy w.period_end then w.period_end else none
          match orOpt walletEnd currentEnd with
          | some e => strLt nowIso e
          | none => false
      if keep then (existingWallet, s)
      else if !jsTruthy subscription.current_period_start
          || !jsTruthy subscription.current_period_end then
        (existingWallet, s)
      else
        let s1 := closeWalletsForUser s nowIso userId "period_reset" false
        openWalletForSubscription s1 nowIso subscription true

/-- The rejection value `{ allowed: false, status: 'rejected', remaining: 0,
walletId: null }` returned on the early-exit paths of `reserveUsage`. -/
def rejectedZero : ReserveResult :=
  { allowed := false, status := .rejected, remaining := 0, walletId := none }

/-- `reserveUsage` from `quotaService.ts`: the full Reserve operation,
including the transactional fresh read of the wallet and usage documents. -/
def reserveUsage (s : Store) (nowIso : String) (userId requestId action : String)
    (amount : Int) : ReserveResult × Store :=
  if requestId = "" then (rejectedZero, s)
  else
    match s.subscriptions userId with
    | none => (rejectedZero, s)
    | some subscription =>
      if !subscription.is_active then (rejectedZero, s)
      else
        match ensureActiveWallet s nowIso userId subscription with
        | (none, s1) => (rejectedZero, s1)
        | (some wallet, s1) =>
          match findWallet s1 wallet.id with
          | none => (rejectedZero, s1)
          | some walletData =>
            if walletData.status ≠ .active then
              ({ allowed := false, status := .rejected
                 remaining := max 0 (walletData.quota_total - walletData.quota_used)
                 walletId := some walletData.id }, s1)
            else
              match s1.usages (usageKey userId requestId) with
              | some existingUsage =>
                ({ allowed := existingUsage.status ≠ .rolled_back
                   status := existingUsage.status.toReserve
                   remaining := max 0 (walletData.quota_total - walletData.quota_used)
                   walletId := some walletData.id }, s1)
              | none =>
                let nextUsed := walletData.quota_used + amount
                if nextUsed > walletData.quota_total then
                  ({ allowed := false, status := .rejected
                     remaining := max 0 (walletData.quota_total - walletData.quota_used)
                     walletId := some walletData.id }, s1)
                else
                  let s2 := updateWalletById s1 walletData.id (fun w =>
                    { w with quota_used := nextUsed
                             updated_at := nowIso
                             last_usage_at := some nowIso })
                  let s3 := setUsage s2 (usageKey userId requestId)
                    { id := usageKey userId requestId
                      user_id := userId
                      wallet_id := walletData.id
                      request_id := requestId
                      action := action
                      amount := amount
                      status := .reserved
                      created_at := nowIso
                      updated_at := nowIso }
                  ({ allowed := true, status := .reserved
                     remaining := max 0 (walletData.quota_total - nextUsed)
                     walletId := some walletData.id }, s3)

/-- `commitUsage` from `quotaService.ts`. -/
def commitUsage (s : Store) (nowIso : String) (userId requestId : String) :
    Option UsageStatus × Store :=
  if requestId = "" then (none, s)
  else
    match s.usages (usageKey userId requestId) with
    | none => (none, s)
    | some usage =>
      if usage.status = .committed then (some .committed, s)
      else if usage.status = .rolled_back then (some .rolled_back, s)
      else
        (some .committed,
         setUsage s (usageKey userId requestId)
           { usage with status := .committed, updated_at := nowIso })

/-- `rollbackUsage` from `quotaService.ts`: refunds the reserved amount to the
wallet (floored at zero) and marks the usage rolled back. -/
def rollbackUsage (s : Store) (nowIso : String) (userId requestId : String) :
    Option UsageStatus × Store :=
  if requestId = "" then (none, s)
  else
    match s.usages (usageKey userId requestId) with
    | none => (none, s)
    | some usage =>
      if usage.status = .rolled_back then (some .rolled_back, s)
      else if usage.status = .committed then (some .committed, s)
      else
        let s1 :=
          match findWallet s usage.wallet_id with
          | some wallet =>
            updateWalletById s usage.wallet_id (fun w =>
              { w with quota_used := max 0 (wallet.quota_used - usage.amount)
                       updated_at := nowIso })
          | none => s
        (some .rolled_back,
         setUsage s1 (usageKey userId requestId)
           { usage with status := .rolled_back, updated_at := nowIso })

end Quota

namespace Sha256

/-!
The webhook event id falls back to `createHash('sha256')` of a composite
string (node's standard SHA-256, FIPS 180-4). The function is embedded in
full so that event ids evaluate on concrete payloads. Words are `Nat`s
reduced modulo `2 ^ 32`.
-/

/-- Truncation to a 32-bit word. -/
def w32 (n : Nat) : Nat := n % 4294967296

/-- 32-bit right rotation. -/
def rotr (k x : Nat) : Nat := w32 ((x >>> k) ||| (x <<< (32 - k)))

/-- SHA-256 small sigma 0. -/
def s0 (x : Nat) : Nat := (rotr 7 x) ^^^ (rotr 18 x) ^^^ (x >>> 3)

/-- SHA-256 small sigma 1. -/
def s1 (x : Nat) : Nat := (rotr 17 x) ^^^ (rotr 19 x) ^^^ (x >>> 10)

/-- SHA-256 big sigma 0. -/
def bs0 (x : Nat) : Nat := (rotr 2 x) ^^^ (rotr 13 x) ^^^ (rotr 22 x)

/-- SHA-256 big sigma 1. -/
def bs1 (x : Nat) : Nat := (rotr 6 x) ^^^ (rotr 11 x) ^^^ (rotr 25 x)

/-- SHA-256 round constants (FIPS 180-4 §4.2.2, written in decimal). -/
def K : List Nat :=
  [1116352408, 1899447441, 3049323471, 3921009573, 961987163, 1508970993,
   2453635748, 2870763221, 3624381080, 310598401, 607225278, 1426881987,
   1925078388, 2162078206, 2614888103, 3248222580, 3835390401, 4022224774,
   264347078, 604807628, 770255983, 1249150122, 1555081692, 1996064986,
   2554220882, 2821834349, 2952996808, 3210313671, 3336571891, 3584528711,
   113926993, 338241895, 666307205, 773529912, 1294757372, 1396182291,
   1695183700, 1986661051, 2177026350, 2456956037, 2730485921, 2820302411,
   3259730800, 3345764771, 3516065817, 3600352804, 4094571909, 275423344,
   430227734, 506948616, 659060556, 883997877, 958139571, 1322822218,
   1537002063, 1747873779, 1955562222, 2024104815, 2227730452, 2361852424,
   2428436474, 2756734187, 3204031479, 3329325298]

/-- Big-endian 32-bit word from four bytes. -/
def word (a b c d : Nat) : Nat := ((a * 256 + b) * 256 + c) * 256 + d

/-- The sixteen initial schedule words of a 64-byte block. -/
def blockWords : List Nat → List Nat
  | a :: b :: c :: d :: rest => word a b c d :: blockWords rest
  | _ => []

/-- Extension of the message schedule from 16 to 64 words; `w` is reversed
(most recent first). -/
def extendW (fuel : Nat) (w : List Nat) : List Nat :=
  match fuel with
  | 0 => w.reverse
  | fuel + 1 =>
    let nw := w32 (s1 (w.getD 1 0) + w.getD 6 0 + s0 (w.getD 14 0) + w.getD 15 0)
    extendW fuel (nw :: w)

/-- Message schedule of one block. -/
def schedule (block : List Nat) : List Nat :=
  extendW 48 (blockWords block).reverse

/-- Working state of the compression function. -/
structure St where
  a : Nat
  b : Nat
  c : Nat
  d : Nat
  e : Nat
  f : Nat
  g : Nat
  h : Nat

/-- One compression round with round constant `k` and schedule word `wt`. -/
def round (st : St) (kwt : Nat × Nat) : St :=
  let t1 := w32 (st.h + bs1 st.e + ((st.e &&& st.f) ^^^ ((2 ^ 32 - 1 - st.e) &&& st.g))
    + kwt.1 + kwt.2)
  let t2 := w32 (bs0 st.a + ((st.a &&& st.b) ^^^ (st.a &&& st.c) ^^^ (st.b &&& st.c)))
  { a := w32 (t1 + t2), b := st.a, c := st.b, d := st.c,
    e := w32 (st.d + t1), f := st.e, g := st.f, h := st.g }

/-- Compression of one 64-byte block into the chaining hash. -/
def compress (h : List Nat) (block : List Nat) : List Nat :=
  let ws := schedule block
  let st0 : St :=
    { a := h.getD 0 0, b := h.getD 1 0, c := h.getD 2 0, d := h.getD 3 0,
      e := h.getD 4 0, f := h.getD 5 0, g := h.getD 6 0, h := h.getD 7 0 }
  let st := (K.zip ws).foldl round st0
  [w32 (h.getD 0 0 + st.a), w32 (h.getD 1 0 + st.b), w32 (h.getD 2 0 + st.c),
   w32 (h.getD 3 0 + st.d), w32 (h.getD 4 0 + st.e), w32 (h.getD 5 0 + st.f),
   w32 (h.getD 6 0 + st.g), w32 (h.getD 7 0 + st.h)]

/-- Initial hash value (FIPS 180-4 §5.3.3, written in decimal). -/
def H0 : List Nat :=
  [1779033703, 3144134277, 1013904242, 2773480762,
   1359893119, 2600822924, 528734635, 1541459225]

/-- SHA-256 padding: `0x80`, zeros to 56 mod 64, 8-byte big-endian bit length. -/
def pad (msg : List Nat) : List Nat :=
  let len := msg.length
  let zeros := (119 - len % 64) % 64
  let bits := len * 8
  msg ++ [0x80] ++ List.replicate zeros 0 ++
    [bits >>> 56 % 256, bits >>> 48 % 256, bits >>> 40 % 256, bits >>> 32 % 256,
     bits >>> 24 % 256, bits >>> 16 % 256, bits >>> 8 % 256, bits % 256]

/-- Folding the compression function over consecutive 64-byte blocks. -/
def foldBlocks (fuel : Nat) (msg : List Nat) (h : List Nat) : List Nat :=
  match fuel, msg with
  | 0, _ => h
  | _, [] => h
  | fuel + 1, msg => foldBlocks fuel (msg.drop 64) (compress h (msg.take 64))

/-- Lower-case hexadecimal digit. -/
def hexDigit (n : Nat) : Char :=
  if n < 10 then Char.ofNat (48 + n) else Char.ofNat (87 + n)

/-- Eight-hex-digit rendering of a 32-bit word. -/
def hexWord (n : Nat) : List Char :=
  [hexDigit (n >>> 28 % 16), hexDigit (n >>> 24 % 16), hexDigit (n >>> 20 % 16),
   hexDigit (n >>> 16 % 16), hexDigit (n >>> 12 % 16), hexDigit (n >>> 8 % 16),
   hexDigit (n >>> 4 % 16), hexDigit (n % 16)]

/-- SHA-256 hex digest of a byte list (`digest('hex')`). -/
def hexDigest (msg : List Nat) : String :=
  let padded := pad msg
  let hs := foldBlocks (padded.length / 64 + 1) padded H0
  ⟨(hs.map hexWord).flatten⟩

/-- UTF-8 encoding of one character. -/
def utf8Char (c : Char) : List Nat :=
  let n := c.toNat
  if n < 0x80 then [n]
  else if n < 0x800 then [0xc0 ||| (n >>> 6), 0x80 ||| (n % 64)]
  else if n < 0x10000 then
    [0xe0 ||| (n >>> 12), 0x80 ||| (n >>> 6 % 64), 0x80 ||| (n % 64)]
  else
    [0xf0 ||| (n >>> 18), 0x80 ||| (n >>> 12 % 64), 0x80 ||| (n >>> 6 % 64),
     0x80 ||| (n % 64)]

/-- UTF-8 bytes of a string (what `hash.update(string)` consumes). -/
def utf8 (s : String) : List Nat :=
  (s.data.map utf8Char).flatten

/-- `toHash` from `quotaService.ts`: hex SHA-256 of the UTF-8 string. -/
def ofString (s : String) : String :=
  hexDigest (utf8 s)

end Sha256

namespace Quota

/-- `normalizeEventType` from `quotaService.ts`: `(value || 'UNKNOWN').toUpperCase()`. -/
def normalizeEventType (value : String) : String :=
  strUpper (if value = "" then "UNKNOWN" else value)

/-- `getWebhookEventId` from `quotaService.ts`. Note the composite uses the
payload's `eventType` field as given (it is computed before the caller's
normalization), and the empty-string event id is falsy. -/
def getWebhookEventId (payload : RevenueCatEventContext) : String :=
  match payload.eventId with
  | some e =>
    if e = "" then
      "rc_" ++ Sha256.ofString (payload.userId ++ ":" ++ payload.eventType ++ ":"
        ++ payload.periodStart.getD "" ++ ":" ++ payload.periodEnd.getD "")
    else "rc_" ++ e
  | none =>
    "rc_" ++ Sha256.ofString (payload.userId ++ ":" ++ payload.eventType ++ ":"
      ++ payload.periodStart.getD "" ++ ":" ++ payload.periodEnd.getD "")

/-- `isPurchaseEvent` from `quotaService.ts`. -/
def isPurchaseEvent (eventType : String) : Bool :=
  ["INITIAL_PURCHASE", "RENEWAL", "PRODUCT_CHANGE", "UNCANCELLATION",
   "SUBSCRIPTION_PURCHASE"].contains eventType

/-- `isCancellationEvent` from `quotaService.ts`. -/
def isCancellationEvent (eventType : String) : Bool :=
  ["CANCELLATION", "CANCEL", "AUTO_RENEW_DISABLED"].contains eventType

/-- `isExpirationEvent` from `quotaService.ts`. -/
def isExpirationEvent (eventType : String) : Bool :=
  ["EXPIRATION", "EXPIRE"].contains eventType

/-- `isRefundEvent` from `quotaService.ts`. -/
def isRefundEvent (eventType : String) : Bool :=
  ["REFUND", "CHARGEBACK"].contains eventType

/-- `isBillingIssueEvent` from `quotaService.ts`. -/
def isBillingIssueEvent (eventType : String) : Bool :=
  ["BILLING_ISSUE", "PAUSE", "BILLING_ISSUE_DETECTED", "GRACE_PERIOD"].contains eventType

/-- `shouldCloseWalletStatus` from `quotaService.ts`. -/
def shouldCloseWalletStatus (status : SubscriptionStatus) : Bool :=
  status = .expired || status = .refunded || status = .billing_issue

/-- The target subscription status classification inside
`processRevenueCatEvent` (first-match priority). -/
def classifyStatus (eventType : String) (existing : Option SubscriptionDoc) :
    SubscriptionStatus :=
  if isRefundEvent eventType then .refunded
  else if isExpirationEvent eventType then .expired
  else if isBillingIssueEvent eventType then .billing_issue
  else if isCancellationEvent eventType then .cancelled
  else if isPurchaseEvent eventType then .active
  else match existing with
    | some e => e.status
    | none => .active

/-- Outcome of the subscription state-transition transaction of
`processRevenueCatEvent` (lines 573–629 of the source): the flags it records
and the merged subscription document it writes. -/
structure TransitionResult where
  status : SubscriptionStatus
  isActive : Bool
  willRenew : Bool
  planChanged : Bool
  periodChanged : Bool
  shouldOpenWallet : Bool
  shouldCloseWallet : Bool
  updates : SubscriptionDoc
deriving DecidableEq, Repr

/-- The plan used by the subscription transition: resolution of
`payload.productId` (`resolvePlanConfig(productId) ?? getPlanConfigById(productId)`,
computed before the transaction), falling back to the existing subscription's
plan id inside it. -/
def nextPlanOf (existing : Option SubscriptionDoc) (payload : RevenueCatEventContext) :
    Option PlanConfig :=
  orOpt
    (orOpt (resolvePlanConfig payload.productId) (getPlanConfigById payload.productId))
    (match existing.bind (fun e => e.plan_id) with
     | some pid => getPlanConfigById (some pid)
     | none => none)

/-- The `planChanged` computation of the transition:
`Boolean(nextPlan && existingPlanId && nextPlan.planId !== existingPlanId)`
(an empty existing plan id string is falsy). -/
def codePlanChanged (nextPlan : Option PlanConfig) (existingPlanId : Option String) :
    Bool :=
  match nextPlan, existingPlanId with
  | some np, some ep => ep != "" && np.planId != ep
  | _, _ => false

/-- The `periodChanged` computation of the transition:
`Boolean(periodEnd && existing?.current_period_end && periodEnd !== existing.current_period_end)`
where `periodEndL` is the payload value with fallback to the existing one. -/
def codePeriodChanged (periodEndL existingEnd : Option String) : Bool :=
  match periodEndL, existingEnd with
  | some pe, some ee => pe != "" && ee != "" && pe != ee
  | _, _ => false

/-- The subscription state-transition transaction body of
`processRevenueCatEvent`, as a pure function of the prior subscription
document. `eventType` is the normalized (uppercased) event type. -/
def subscriptionTransition (existing : Option SubscriptionDoc)
    (payload : RevenueCatEventContext) (eventType nowIso : String) :
    TransitionResult :=
  let existingPlanId := existing.bind (fun e => e.plan_id)
  let nextPlan := nextPlanOf existing payload
  let status := classifyStatus eventType existing
  let isActive := status = .active || status = .cancelled
  let willRenew :=
    match payload.willRenew with
    | some b => b
    | none => status = .active
  let periodStart := orOpt payload.periodStart (existing.bind (·.current_period_start))
  let periodEnd := orOpt payload.periodEnd (existing.bind (·.current_period_end))
  let planChanged := codePlanChanged nextPlan existingPlanId
  let periodChanged := codePeriodChanged periodEnd (existing.bind (·.current_period_end))
  let shouldOpenWallet :=
    isActive && (isPurchaseEvent eventType || planChanged || periodChanged)
  let shouldCloseWallet :=
    shouldCloseWalletStatus status &&
      (match existing with
       | some e => e.is_active
       | none => false)
  let updates : SubscriptionDoc :=
    { id := payload.userId
      user_id := payload.userId
      platform := orOpt payload.platform (existing.bind (·.platform))
      rc_app_user_id := orOpt payload.rcAppUserId (existing.bind (·.rc_app_user_id))
      product_id := orOpt payload.productId (existing.bind (·.product_id))
      plan_id := orOpt (nextPlan.map (·.planId)) existingPlanId
      plan_key := orOpt (nextPlan.map (·.planKey)) (existing.bind (·.plan_key))
      cycle := orOpt (nextPlan.map (·.cycle)) (existing.bind (·.cycle))
      entitlement_ids := payload.entitlementIds
      is_active := isActive
      will_renew := willRenew
      status := status
      current_period_start := periodStart
      current_period_end := periodEnd
      last_rc_event_at := some nowIso
      original_purchase_date :=
        orOpt payload.originalPurchaseDate (existing.bind (·.original_purchase_date))
      updated_at := nowIso
      created_at :=
        match existing with
        | some e => e.created_at
        | none => nowIso }
  { status := status, isActive := isActive, willRenew := willRenew
    planChanged := planChanged, periodChanged := periodChanged
    shouldOpenWallet := shouldOpenWallet, shouldCloseWallet := shouldCloseWallet
    updates := updates }

/-- The webhook event document first written by `processRevenueCatEvent`. -/
def initialWebhookDoc (payload : RevenueCatEventContext)
    (eventDocId eventType nowIso : String) : WebhookEventDoc :=
  { id := eventDocId
    rc_event_id := payload.eventId.getD eventDocId
    event_type := eventType
    rc_app_user_id := payload.rcAppUserId
    received_at := nowIso
    processed_at := none
    payload_json := payload.rawEvent
    status := .received }

/-- `processRevenueCatEvent` from `quotaService.ts`: dedup on
`webhook_events`, subscription transition, wallet close/open side effects,
and the final processed marker (written with merge semantics). -/
def processRevenueCatEvent (s : Store) (nowIso : String)
    (payload : RevenueCatEventContext) : Store :=
  let eventType := normalizeEventType payload.eventType
  let eventDocId := getWebhookEventId payload
  match s.webhookEvents eventDocId with
  | some _ => s
  | none =>
    let s1 := { s with webhookEvents := fun k =>
      if k = eventDocId then some (initialWebhookDoc payload eventDocId eventType nowIso)
      else s.webhookEvents k }
    let tr := subscriptionTransition (s1.subscriptions payload.userId) payload
      eventType nowIso
    let s2 := { s1 with subscriptions := fun k =>
      if k = payload.userId then some tr.updates else s1.subscriptions k }
    let s3 :=
      if tr.shouldCloseWallet then
        closeWalletsForUser s2 nowIso tr.updates.user_id tr.updates.status.str true
      else s2
    let s4 :=
      if tr.shouldOpenWallet then
        (openWalletForSubscription s3 nowIso tr.updates
          (tr.planChanged || tr.periodChanged)).2
      else s3
    { s4 with webhookEvents := fun k =>
        if k = eventDocId then
          some (match s4.webhookEvents eventDocId with
            | some d => { d with processed_at := some nowIso, status := .processed }
            | none =>
              { initialWebhookDoc payload eventDocId eventType nowIso with
                  processed_at := some nowIso, status := .processed })
        else s4.webhookEvents k }

end Quota

namespace Cal

/-!
Calendar arithmetic backing `syncQuotaFromPlan`'s period computation
(`Date.UTC(...)` / `toISOString()` on the proleptic Gregorian calendar).
ECMAScript `Date.UTC(year, monthIndex, day)` first normalizes the month
(`year += ⌊monthIndex / 12⌋`, `monthIndex %= 12`), then adds `day − 1` days
to the first of that month, carrying overflow into following months.
-/

/-- A proleptic Gregorian calendar date; `month` is 1-based. -/
structure CivilDate where
  year : Nat
  month : Nat
  day : Nat
deriving DecidableEq, Repr

/-- Gregorian leap-year rule. -/
def isLeap (y : Nat) : Bool :=
  y % 4 == 0 && (y % 100 != 0 || y % 400 == 0)

/-- Number of days of month `m` (1-based) in year `y`. -/
def daysInMonth (y m : Nat) : Nat :=
  if m = 2 then (if isLeap y then 29 else 28)
  else if m = 4 ∨ m = 6 ∨ m = 9 ∨ m = 11 then 30
  else 31

/-- The day after `d`. -/
def nextDay (d : CivilDate) : CivilDate :=
  if d.day < daysInMonth d.year d.month then ⟨d.year, d.month, d.day + 1⟩
  else if d.month < 12 then ⟨d.year, d.month + 1, 1⟩
  else ⟨d.year + 1, 1, 1⟩

/-- Adding `k` days to a date. -/
def addDays (d : CivilDate) : Nat → CivilDate
  | 0 => d
  | k + 1 => addDays (nextDay d) k

/-- `Date.UTC(year, monthIndex, day)` (0-based `monthIndex`, 1-based `day`),
as the civil date of the produced midnight-UTC instant, for `day ≥ 1`. -/
def dateUTC (year monthIndex day : Nat) : CivilDate :=
  addDays ⟨year + monthIndex / 12, monthIndex % 12 + 1, 1⟩ (day - 1)

/-- A UTC instant: civil date plus milliseconds past midnight. -/
structure Instant where
  date : CivilDate
  msOfDay : Nat
deriving DecidableEq, Repr

/-- A meaningful civil date: month in range and day within the month. -/
def Valid (d : CivilDate) : Prop :=
  1 ≤ d.month ∧ d.month ≤ 12 ∧ 1 ≤ d.day ∧ d.day ≤ daysInMonth d.year d.month

instance (d : CivilDate) : Decidable (Valid d) := by
  unfold Valid; infer_instance

end Cal

namespace Quota

/-- The synthetic period written by `syncQuotaFromPlan` (source lines
235–240): `start = now`; `end = Date.UTC(y, m + 1, 1)` for a monthly plan
(`m = now.getUTCMonth()`, 0-based, so `m + 1 = now.date.month`) and
`Date.UTC(y + 1, m, d)` for a yearly plan. -/
def syncPeriod (cycle : PlanCycle) (now : Cal.Instant) : Cal.Instant × Cal.Instant :=
  let periodEnd : Cal.Instant :=
    match cycle with
    | .monthly => ⟨Cal.dateUTC now.date.year ((now.date.month - 1) + 1) 1, 0⟩
    | .yearly => ⟨Cal.dateUTC (now.date.year + 1) (now.date.month - 1) now.date.day, 0⟩
  (now, periodEnd)

/-- Modelled from the spec: "end = first day of next UTC month (for monthly)". -/
def firstOfNextMonth (d : Cal.CivilDate) : Cal.CivilDate :=
  if d.month = 12 then ⟨d.year + 1, 1, 1⟩ else ⟨d.year, d.month + 1, 1⟩

/-- Modelled from the spec: "same month/day one UTC year ahead (for yearly)". -/
def sameDayNextYear (d : Cal.CivilDate) : Cal.CivilDate :=
  ⟨d.year + 1, d.month, d.day⟩

/-- One Reserve/Commit/Rollback operation on a user's quota, tagged with the
wall-clock ISO timestamp at which it runs. -/
inductive QuotaOp where
  | reserve (nowIso requestId action : String) (amount : Int)
  | commit (nowIso requestId : String)
  | rollback (nowIso requestId : String)
deriving DecidableEq, Repr

/-- The reserve amount of an operation (commit/rollback carry none; they are
assigned the in-range constant 1 so a single bound covers all operations). -/
def QuotaOp.amount : QuotaOp → Int
  | .reserve _ _ _ a => a
  | .commit _ _ => 1
  | .rollback _ _ => 1

/-- Application of one operation to the store (result value discarded). -/
def applyQuotaOp (u : String) (s : Store) : QuotaOp → Store
  | .reserve nowIso r act a => (reserveUsage s nowIso u r act a).2
  | .commit nowIso r => (commitUsage s nowIso u r).2
  | .rollback nowIso r => (rollbackUsage s nowIso u r).2

/-- Application of a sequence of operations, first operation first. -/
def applyQuotaOps (u : String) (s : Store) (ops : List QuotaOp) : Store :=
  ops.foldl (applyQuotaOp u) s

/-- The quota bounds invariant of a single wallet. -/
def WalletBounds (w : QuotaWalletDoc) : Prop :=
  0 ≤ w.quota_used ∧ w.quota_used ≤ w.quota_total

instance (w : QuotaWalletDoc) : Decidable (WalletBounds w) := by
  unfold WalletBounds
  infer_instance

/-- Store well-formedness: wallet bounds, non-negative recorded usage
amounts, distinct wallet document ids, and freshness of the id counter
(document ids the store will assign are longer than every existing id). -/
def StoreInv (s : Store) : Prop :=
  (∀ w ∈ s.wallets, WalletBounds w)
  ∧ (∀ k d, s.usages k = some d → 0 ≤ d.amount)
  ∧ (s.wallets.map (fun w => w.id)).Nodup
  ∧ (∀ w ∈ s.wallets, w.id.length < 7 + s.nextWalletId)

/-- Modelled from the claim as stated: `planChanged = (resolved planId ≠
existing planId)`, read over nullable values. -/
def claimPlanChangedStated (resolved existingPlanId : Option String) : Bool :=
  resolved != existingPlanId

/-- Modelled from the claim as stated: `periodChanged = (payload.periodEnd
present and differs from existing currentPeriodEnd)`. -/
def claimPeriodChangedStated (payloadEnd existingEnd : Option String) : Bool :=
  payloadEnd.isSome && payloadEnd != existingEnd

/-- The derived `isActive` of the subscription transition. -/
def derivedIsActive (eventType : String) (existing : Option SubscriptionDoc) : Bool :=
  let st := classifyStatus eventType existing
  st = .active || st = .cancelled

/-- The claim's stated wallet-opening condition:
`isActive AND (eventIsPurchase OR planChanged OR periodChanged)` with the
stated (guard-free) change predicates. -/
def claimShouldOpenStated (existing : Option SubscriptionDoc)
    (payload : RevenueCatEventContext) (eventType : String) : Bool :=
  derivedIsActive eventType existing
    && (isPurchaseEvent eventType
      || claimPlanChangedStated ((nextPlanOf existing payload).map (fun pl => pl.planId))
          (existing.bind (fun e => e.plan_id))
      || claimPeriodChangedStated payload.periodEnd
          (existing.bind (fun e => e.current_period_end)))

/-- Amended change predicate: a plan change requires both a resolved plan and
a non-empty existing plan id. -/
def claimPlanChangedAmended (resolved existingPlanId : Option String) : Bool :=
  match resolved, existingPlanId with
  | some r, some e => e != "" && r != e
  | _, _ => false

/-- Amended change predicate: a period change requires both a non-empty
payload period end and a non-empty existing period end. -/
def claimPeriodChangedAmended (payloadEnd existingEnd : Option String) : Bool :=
  match payloadEnd, existingEnd with
  | some pe, some ee => pe != "" && ee != "" && pe != ee
  | _, _ => false

/-- Modelled from the claim as stated for C8: `rc_` + providerEventId when
present, else `rc_` + sha256 of the composite computed over the *uppercased*
event type. -/
def claimEventDocIdStated (payload : RevenueCatEventContext) : String :=
  match payload.eventId with
  | some e => "rc_" ++ e
  | none =>
    "rc_" ++ Sha256.ofString (payload.userId ++ ":" ++ strUpper payload.eventType ++ ":"
      ++ payload.periodStart.getD "" ++ ":" ++ payload.periodEnd.getD "")

/-- Amended C8 document id: the provider event id must be non-empty, and the
hash composite uses the event type exactly as given in the payload. -/
def claimEventDocIdAmended (payload : RevenueCatEventContext) : String :=
  if jsTruthy payload.eventId then "rc_" ++ payload.eventId.getD ""
  else
    "rc_" ++ Sha256.ofString (payload.userId ++ ":" ++ payload.eventType ++ ":"
      ++ payload.periodStart.getD "" ++ ":" ++ payload.periodEnd.getD "")

/-! Concrete fixtures used by counterexamples and witnesses. -/

/-- A premium-monthly subscription current through 2025-02-01. -/
def baseSub : SubscriptionDoc :=
  { id := "u1", user_id := "u1", platform := none, rc_app_user_id := none,
    product_id := some "premium_monthly", plan_id := some "premium_monthly",
    plan_key := some "base", cycle := some .monthly, entitlement_ids := [],
    is_active := true, will_renew := true, status := .active,
    current_period_start := some "2025-01-01T00:00:00.000Z",
    current_period_end := some "2025-02-01T00:00:00.000Z",
    last_rc_event_at := none, original_purchase_date := none,
    updated_at := "2025-01-01T00:00:00.000Z",
    created_at := "2025-01-01T00:00:00.000Z" }

/-- The active wallet of `baseSub`'s user, with 5 of 100 units used. -/
def baseWallet : QuotaWalletDoc :=
  { id := "w1", user_id := "u1", subscription_id := some "u1",
    plan_id := some "premium_monthly", scope := .monthly,
    period_start := some "2025-01-01T00:00:00.000Z",
    period_end := some "2025-02-01T00:00:00.000Z",
    quota_total := 100, quota_used := 5, status := .active,
    last_usage_at := none,
    created_at := "2025-01-01T00:00:00.000Z",
    updated_at := "2025-01-01T00:00:00.000Z", closed_reason := none }

/-- A store holding `baseSub` and `baseWallet` and nothing else. -/
def baseStore : Store :=
  { subscriptions := fun k => if k = "u1" then some baseSub else none,
    wallets := [baseWallet],
    usages := fun _ => none,
    webhookEvents := fun _ => none,
    nextWalletId := 0 }

/-- A timestamp inside the base wallet's period. -/
def baseNow : String := "2025-01-15T12:00:00.000Z"

/-- Wallet at the reservation boundary: 99 of 100 units used. -/
def boundaryWallet : QuotaWalletDoc := { baseWallet with quota_used := 99 }

/-- `baseStore` with the boundary wallet. -/
def boundaryStore : Store := { baseStore with wallets := [boundaryWallet] }

/-- A subscription whose plan id resolves to no catalog entry. -/
def unknownPlanSub : SubscriptionDoc := { baseSub with plan_id := some "mystery_plan" }

/-- Store for C10: active subscription with an unresolvable plan, plus an
existing active wallet that must not be touched. -/
def unknownPlanStore : Store :=
  { baseStore with subscriptions := fun k => if k = "u1" then some unknownPlanSub else none }

/-- An existing subscription with no resolved plan and no period end, as
written for a user whose first event carried an unresolvable product. -/
def nullPlanSub : SubscriptionDoc :=
  { baseSub with product_id := none, plan_id := none, plan_key := none,
                 cycle := none, current_period_start := none, current_period_end := none }

/-- Store for the C7 counterexample: subscription with null plan id, no wallets. -/
def nullPlanStore : Store :=
  { subscriptions := fun k => if k = "u1" then some nullPlanSub else none,
    wallets := [],
    usages := fun _ => none,
    webhookEvents := fun _ => none,
    nextWalletId := 0 }

/-- A billing event payload: a cancellation-category event whose product
resolves to `premium_monthly`, with no period information. -/
def cancelPayload : RevenueCatEventContext :=
  { userId := "u1", eventId := some "E1", eventType := "AUTO_RENEW_DISABLED",
    rcAppUserId := none, productId := some "premium_monthly", entitlementIds := [],
    platform := none, willRenew := none, periodStart := none, periodEnd := none,
    originalPurchaseDate := none, rawEvent := "{}" }

/-- A renewal payload without a provider event id, with a lower-case event
type, exercising the hashed document id. -/
def hashedIdPayload : RevenueCatEventContext :=
  { userId := "u1", eventId := none, eventType := "renewal",
    rcAppUserId := none, productId := some "premium_monthly", entitlementIds := [],
    platform := none, willRenew := none, periodStart := none, periodEnd := none,
    originalPurchaseDate := none, rawEvent := "{}" }

/-- An empty document store. -/
def emptyStore : Store :=
  { subscriptions := fun _ => none,
    wallets := [],
    usages := fun _ => none,
    webhookEvents := fun _ => none,
    nextWalletId := 0 }

/-- A renewal (purchase-category) payload with a resolvable product and a
period, for a user with no subscription yet. -/
def purchasePayload : RevenueCatEventContext :=
  { userId := "u1", eventId := some "E2", eventType := "RENEWAL",
    rcAppUserId := none, productId := some "premium_monthly", entitlementIds := [],
    platform := none, willRenew := some true,
    periodStart := some "2025-01-01T00:00:00.000Z",
    periodEnd := some "2025-02-01T00:00:00.000Z",
    originalPurchaseDate := none, rawEvent := "{}" }

/-- A committed usage record for request `r1` against `baseWallet`. -/
def committedUsage : QuotaUsageDoc :=
  { id := "u1_r1", user_id := "u1", wallet_id := "w1", request_id := "r1",
    action := "ai_detect", amount := 1, status := .committed,
    created_at := baseNow, updated_at := baseNow }

/-- `baseStore` with `committedUsage` recorded. -/
def committedStore : Store :=
  { baseStore with usages := fun k => if k = "u1_r1" then some committedUsage else none }

/-- A sample operation sequence: reserve, commit, reserve, rollback. -/
def opsEx : List QuotaOp :=
  [ .reserve baseNow "r1" "ai_detect" 1,
    .commit baseNow "r1",
    .reserve baseNow "r2" "ai_detect" 2,
    .rollback baseNow "r2" ]

end Quota

set_option maxRecDepth 100000 in
/-- FIPS 180-4 test vector, checking the embedding of the hash. -/
theorem Sha256.sha256_abc :
    Sha256.ofString "abc"
      = "ba7816bf8f01cfea414140de5dae2223b00361a396177a9cb410ff61f20015ad" := by
  decide

namespace Quota

/-! ## Helper lemmas -/

theorem string_data_inj {a b : String} (h : a.data = b.data) : a = b := by
  cases a
  cases b
  exact congrArg String.mk h

theorem usageKey_inj {u r1 r2 : String} (h : usageKey u r1 = usageKey u r2) :
    r1 = r2 := by
  unfold usageKey at h
  apply string_data_inj
  have hd := congrArg String.data h
  simp only [String.data_append] at hd
  exact List.append_cancel_left hd

theorem planConfig_mem {x : Option String} {pc : PlanConfig}
    (h : getPlanConfigById x = some pc) : pc ∈ PLAN_CONFIG := by
  cases x with
  | none => simp [getPlanConfigById] at h
  | some pid =>
    by_cases hp : pid = ""
    · simp [getPlanConfigById, hp] at h
    · simp only [getPlanConfigById, hp, if_false] at h
      exact List.mem_of_find?_eq_some h

theorem planConfig_quota_nonneg {x : Option String} {pc : PlanConfig}
    (h : getPlanConfigById x = some pc) : 0 ≤ pc.quota := by
  have hall : ∀ pc ∈ PLAN_CONFIG, 0 ≤ pc.quota := by decide
  exact hall pc (planConfig_mem h)

theorem find?_map_invariant {α : Type} (p : α → Bool) (g : α → α)
    (hp : ∀ x, p (g x) = p x) :
    ∀ l : List α, (l.map g).find? p = (l.find? p).map g := by
  intro l
  induction l with
  | nil => rfl
  | cons a t ih =>
    simp only [List.map_cons]
    cases hpa : p a with
    | true =>
      rw [List.find?_cons_of_pos _ (by rw [hp a]; exact hpa),
        List.find?_cons_of_pos _ hpa]
      rfl
    | false => rw [List.find?_cons_of_neg _ (by rw [hp a]; exact (by simp [hpa])),
        List.find?_cons_of_neg _ (by simp [hpa]), ih]

theorem filter_map_invariant {α : Type} (p : α → Bool) (g : α → α)
    (hp : ∀ x, p (g x) = p x) :
    ∀ l : List α, (l.map g).filter p = (l.filter p).map g := by
  intro l
  induction l with
  | nil => rfl
  | cons a t ih =>
    simp only [List.map_cons, List.filter_cons, hp a]
    cases hpa : p a with
    | true => simp [ih]
    | false => simp [ih]

theorem findWallet_updateWalletById (s : Store) (wid : String)
    (f : QuotaWalletDoc → QuotaWalletDoc) (hf : ∀ w, (f w).id = w.id) :
    findWallet (updateWalletById s wid f) wid
      = (findWallet s wid).map (fun w => if w.id == wid then f w else w) := by
  unfold findWallet updateWalletById
  exact find?_map_invariant _ _
    (fun w => by
      by_cases h : w.id == wid <;> simp [h, hf]) s.wallets

theorem findWallet_found_update (s : Store) (wid : String) (w : QuotaWalletDoc)
    (f : QuotaWalletDoc → QuotaWalletDoc) (hf : ∀ x, (f x).id = x.id)
    (hw : findWallet s wid = some w) :
    findWallet (updateWalletById s wid f) wid = some (f w) := by
  have hid : w.id = wid := by
    unfold findWallet at hw
    have h2 := List.find?_some hw
    simpa using h2
  rw [findWallet_updateWalletById s wid f hf, hw]
  simp [hid]

theorem foldl_pickLater_map (g : QuotaWalletDoc → QuotaWalletDoc)
    (hkey : ∀ w, (g w).period_end = w.period_end) :
    ∀ (l : List QuotaWalletDoc) (acc : Option QuotaWalletDoc),
      (l.map g).foldl pickLater (acc.map g) = (l.foldl pickLater acc).map g := by
  intro l
  induction l with
  | nil => intro acc; rfl
  | cons a t ih =>
    intro acc
    simp only [List.map_cons, List.foldl_cons]
    have hstep : pickLater (acc.map g) (g a) = (pickLater acc a).map g := by
      cases acc with
      | none => rfl
      | some b =>
        show (if endLater (g a).period_end (g b).period_end
              then some (g a) else some (g b))
            = Option.map g (if endLater a.period_end b.period_end
              then some a else some b)
        rw [hkey a, hkey b]
        by_cases hc : endLater a.period_end b.period_end <;> simp [hc]
    rw [hstep, ih]

theorem getActiveWallet_updateWalletById (s : Store) (u wid : String)
    (f : QuotaWalletDoc → QuotaWalletDoc)
    (huser : ∀ w, (f w).user_id = w.user_id)
    (hstatus : ∀ w, (f w).status = w.status)
    (hpe : ∀ w, (f w).period_end = w.period_end) :
    getActiveWallet (updateWalletById s wid f) u
      = (getActiveWallet s u).map (fun w => if w.id == wid then f w else w) := by
  unfold getActiveWallet updateWalletById
  simp only
  rw [filter_map_invariant (isActiveWalletFor u) _
      (fun w => by
        by_cases h : w.id == wid <;> simp [isActiveWalletFor, h, huser, hstatus])]
  exact foldl_pickLater_map _
    (fun w => by by_cases h : w.id == wid <;> simp [h, hpe])
    (s.wallets.filter (isActiveWalletFor u)) none

theorem ensureActiveWallet_keep (s : Store) (nowIso u : String)
    (sub : SubscriptionDoc) (w : QuotaWalletDoc) (e : String) (pc : PlanConfig)
    (hact : sub.is_active = true)
    (hpc : getPlanConfigById sub.plan_id = some pc)
    (hw : getActiveWallet s u = some w)
    (he : w.period_end = some e) (hne : e ≠ "")
    (hlt : strLt nowIso e = true) :
    ensureActiveWallet s nowIso u sub = (some w, s) := by
  unfold ensureActiveWallet
  simp [hact, hpc, hw, he, hne, hlt, jsTruthy, orOpt]

theorem getActiveWallet_setUsage (s : Store) (k : String) (d : QuotaUsageDoc)
    (u : String) : getActiveWallet (setUsage s k d) u = getActiveWallet s u := rfl

/-- Evaluation of a successful Reserve against a current active wallet with
no prior usage document for the request: the wallet is debited and a
`reserved` usage document is created. -/
theorem reserveUsage_success (s : Store) (nowIso u r act : String) (amt : Int)
    (sub : SubscriptionDoc) (w : QuotaWalletDoc) (e : String)
    (hr : r ≠ "") (hs : s.subscriptions u = some sub) (hact : sub.is_active = true)
    (hpc : (getPlanConfigById sub.plan_id).isSome = true)
    (hw : getActiveWallet s u = some w) (he : w.period_end = some e)
    (hne : e ≠ "") (hlt : strLt nowIso e = true)
    (hfind : findWallet s w.id = some w) (hwact : w.status = .active)
    (hu : s.usages (usageKey u r) = none)
    (hnotover : ¬(w.quota_used + amt > w.quota_total)) :
    reserveUsage s nowIso u r act amt
      = ({ allowed := true, status := .reserved,
           remaining := max 0 (w.quota_total - (w.quota_used + amt)),
           walletId := some w.id },
         setUsage
           (updateWalletById s w.id (fun x =>
             { x with quota_used := w.quota_used + amt
                      updated_at := nowIso
                      last_usage_at := some nowIso }))
           (usageKey u r)
           { id := usageKey u r, user_id := u, wallet_id := w.id,
             request_id := r, action := act, amount := amt, status := .reserved,
             created_at := nowIso, updated_at := nowIso }) := by
  obtain ⟨pc, hpc'⟩ := Option.isSome_iff_exists.mp hpc
  have hkeep := ensureActiveWallet_keep s nowIso u sub w e pc hact hpc' hw he hne hlt
  unfold reserveUsage
  simp [hr, hs, hact, hkeep, hfind, hwact, hu, hnotover]

/-- Evaluation of a Reserve against a current active wallet with no prior
usage document when the requested amount exceeds the remaining quota: it
rejects with the current remaining and performs no writes. -/
theorem reserveUsage_reject_over (s : Store) (nowIso u r act : String) (amt : Int)
    (sub : SubscriptionDoc) (w : QuotaWalletDoc) (e : String)
    (hr : r ≠ "") (hs : s.subscriptions u = some sub) (hact : sub.is_active = true)
    (hpc : (getPlanConfigById sub.plan_id).isSome = true)
    (hw : getActiveWallet s u = some w) (he : w.period_end = some e)
    (hne : e ≠ "") (hlt : strLt nowIso e = true)
    (hfind : findWallet s w.id = some w) (hwact : w.status = .active)
    (hu : s.usages (usageKey u r) = none)
    (hover : w.quota_used + amt > w.quota_total) :
    reserveUsage s nowIso u r act amt
      = ({ allowed := false, status := .rejected,
           remaining := max 0 (w.quota_total - w.quota_used),
           walletId := some w.id }, s) := by
  obtain ⟨pc, hpc'⟩ := Option.isSome_iff_exists.mp hpc
  have hkeep := ensureActiveWallet_keep s nowIso u sub w e pc hact hpc' hw he hne hlt
  unfold reserveUsage
  simp [hr, hs, hact, hkeep, hfind, hwact, hu, hover]

/-! ## C4: rollback after commit is a no-op -/

/-- C4: for every usage document in status `committed`, Rollback returns
`committed` and leaves the entire store — in particular the usage document's
status and the wallet's `quota_used` — unchanged. -/
theorem rollback_after_commit_noop (s : Store) (nowIso u r : String)
    (d : QuotaUsageDoc) (hr : r ≠ "") (hd : s.usages (usageKey u r) = some d)
    (hst : d.status = .committed) :
    rollbackUsage s nowIso u r = (some .committed, s) := by
  simp [rollbackUsage, hr, hd, hst]

/-- Witness for C4 at a concrete store. -/
theorem rollback_after_commit_noop_witness :
    rollbackUsage committedStore baseNow "u1" "r1" = (some .committed, committedStore) :=
  rollback_after_commit_noop committedStore baseNow "u1" "r1" committedUsage
    (by decide) (by decide) (by decide)

/-! ## C10: unresolvable plan on an active subscription -/

/-- C10: when the subscription is active but its plan id resolves to no
catalog entry, `ensureActiveWallet` returns none without touching the store
(no wallet consulted or closed), and Reserve consequently rejects with
`remaining = 0` and `walletId = none`. -/
theorem reserve_unresolvable_plan (s : Store) (nowIso u r act : String) (amt : Int)
    (sub : SubscriptionDoc) (hs : s.subscriptions u = some sub)
    (hact : sub.is_active = true) (hpc : getPlanConfigById sub.plan_id = none) :
    ensureActiveWallet s nowIso u sub = (none, s)
    ∧ reserveUsage s nowIso u r act amt = (rejectedZero, s) := by
  have he : ensureActiveWallet s nowIso u sub = (none, s) := by
    simp [ensureActiveWallet, hact, hpc]
  refine ⟨he, ?_⟩
  unfold reserveUsage
  by_cases hr : r = ""
  · simp [hr, rejectedZero]
  · simp [hr, hs, hact, he, rejectedZero]

/-! ## C2: idempotent replay of Reserve -/

set_option maxRecDepth 100000 in
/-- Counterexample to C2 as stated: a Reserve replay returns the usage
document's *current* status, not necessarily the first call's status. After
Reserve (which returns `reserved`) and an intervening Commit, the replayed
Reserve for the same `(userId, requestId)` returns `committed`. -/
theorem reserve_replay_status_changes :
    (reserveUsage baseStore baseNow "u1" "r1" "ai_detect" 1).1.status = .reserved
    ∧ (reserveUsage
        (commitUsage (reserveUsage baseStore baseNow "u1" "r1" "ai_detect" 1).2
          baseNow "u1" "r1").2
        baseNow "u1" "r1" "ai_detect" 1).1.status = .committed := by
  constructor
  · decide
  · decide

/-- C2 (amended): a Reserve that finds an existing usage document
`{userId}_{requestId}` returns that document's current status (equal to the
first call's status whenever no Commit or Rollback intervened) with
`allowed = (status ≠ rolled_back)`, the currently active wallet's id, and the
wallet's current remaining, and performs no writes at all while the active
wallet is unexpired; only a Reserve that observes no existing usage document
mutates the wallet. -/
theorem reserve_replay (s : Store) (nowIso u r act : String) (amt : Int)
    (sub : SubscriptionDoc) (w : QuotaWalletDoc) (e : String) (d : QuotaUsageDoc)
    (hr : r ≠ "") (hs : s.subscriptions u = some sub) (hact : sub.is_active = true)
    (hpc : (getPlanConfigById sub.plan_id).isSome = true)
    (hw : getActiveWallet s u = some w) (he : w.period_end = some e)
    (hne : e ≠ "") (hlt : strLt nowIso e = true)
    (hfind : findWallet s w.id = some w) (hwact : w.status = .active)
    (hd : s.usages (usageKey u r) = some d) :
    reserveUsage s nowIso u r act amt
      = ({ allowed := d.status ≠ .rolled_back, status := d.status.toReserve,
           remaining := max 0 (w.quota_total - w.quota_used),
           walletId := some w.id }, s) := by
  obtain ⟨pc, hpc'⟩ := Option.isSome_iff_exists.mp hpc
  have hkeep := ensureActiveWallet_keep s nowIso u sub w e pc hact hpc' hw he hne hlt
  unfold reserveUsage
  simp [hr, hs, hact, hkeep, hfind, hwact, hd]

/-- Witness for C2 (amended): replay over the committed usage document. -/
theorem reserve_replay_witness :
    reserveUsage committedStore baseNow "u1" "r1" "ai_detect" 1
      = ({ allowed := true, status := .committed, remaining := 95,
           walletId := some "w1" }, committedStore) := by
  rw [reserve_replay committedStore baseNow "u1" "r1" "ai_detect" 1 baseSub
    baseWallet "2025-02-01T00:00:00.000Z" committedUsage (by decide) (by decide)
    (by decide) (by decide) (by decide) (by decide) (by decide) (by decide)
    (by decide) (by decide) (by decide)]
  simp only [Prod.mk.injEq]
  exact ⟨by decide, trivial⟩

/-! ## C3: Reserve then Rollback round trip -/

theorem findWallet_setUsage (s : Store) (k : String) (d : QuotaUsageDoc)
    (wid : String) : findWallet (setUsage s k d) wid = findWallet s wid := rfl

theorem rollbackUsage_reserved (s : Store) (nowIso2 u r wid : String)
    (d : QuotaUsageDoc) (wd : QuotaWalletDoc) (v : Int)
    (hr : r ≠ "") (hd : s.usages (usageKey u r) = some d)
    (hst : d.status = .reserved) (hwid : d.wallet_id = wid)
    (hfindw : findWallet s wid = some wd)
    (hv : max 0 (wd.quota_used - d.amount) = v) :
    rollbackUsage s nowIso2 u r
      = (some .rolled_back,
         setUsage
           (updateWalletById s wid (fun x =>
             { x with quota_used := v, updated_at := nowIso2 }))
           (usageKey u r) { d with status := .rolled_back, updated_at := nowIso2 }) := by
  subst hwid
  subst hv
  unfold rollbackUsage
  simp [hr, hd, hst, hfindw]

/-- C3: a successful Reserve (returning `reserved`) immediately followed by
Rollback for the same `(userId, requestId)` restores the wallet's
`quota_used` to its pre-Reserve value and leaves the usage document in status
`rolled_back`. -/
theorem reserve_rollback_roundtrip (s : Store) (nowIso nowIso2 u r act : String)
    (amt : Int) (sub : SubscriptionDoc) (w : QuotaWalletDoc) (e : String)
    (hr : r ≠ "") (hs : s.subscriptions u = some sub) (hact : sub.is_active = true)
    (hpc : (getPlanConfigById sub.plan_id).isSome = true)
    (hw : getActiveWallet s u = some w) (he : w.period_end = some e)
    (hne : e ≠ "") (hlt : strLt nowIso e = true)
    (hfind : findWallet s w.id = some w) (hwact : w.status = .active)
    (hu : s.usages (usageKey u r) = none)
    (hfit : w.quota_used + amt ≤ w.quota_total) (hnn : 0 ≤ w.quota_used) :
    (reserveUsage s nowIso u r act amt).1.status = .reserved
    ∧ (rollbackUsage (reserveUsage s nowIso u r act amt).2 nowIso2 u r).1
        = some .rolled_back
    ∧ ((rollbackUsage (reserveUsage s nowIso u r act amt).2 nowIso2 u r).2.usages
        (usageKey u r)).map (fun x => x.status) = some .rolled_back
    ∧ (findWallet (rollbackUsage (reserveUsage s nowIso u r act amt).2 nowIso2 u r).2
        w.id).map (fun x => x.quota_used) = some w.quota_used := by
  have hnotover : ¬(w.quota_used + amt > w.quota_total) := by omega
  have hres := reserveUsage_success s nowIso u r act amt sub w e hr hs hact hpc
    hw he hne hlt hfind hwact hu hnotover
  rw [hres]
  have hfind1 : findWallet
      (setUsage
        (updateWalletById s w.id (fun x =>
          { x with quota_used := w.quota_used + amt
                   updated_at := nowIso
                   last_usage_at := some nowIso }))
        (usageKey u r)
        { id := usageKey u r, user_id := u, wallet_id := w.id,
          request_id := r, action := act, amount := amt, status := .reserved,
          created_at := nowIso, updated_at := nowIso }) w.id
      = some { w with quota_used := w.quota_used + amt
                      updated_at := nowIso
                      last_usage_at := some nowIso } :=
    findWallet_found_update s w.id w _ (fun x => rfl) hfind
  have harith : max 0 (w.quota_used + amt - amt) = w.quota_used := by
    have h1 : w.quota_used + amt - amt = w.quota_used := by ring
    rw [h1]
    exact max_eq_right hnn
  have hroll := rollbackUsage_reserved
    (setUsage
      (updateWalletById s w.id (fun x =>
        { x with quota_used := w.quota_used + amt
                 updated_at := nowIso
                 last_usage_at := some nowIso }))
      (usageKey u r)
      { id := usageKey u r, user_id := u, wallet_id := w.id,
        request_id := r, action := act, amount := amt, status := .reserved,
        created_at := nowIso, updated_at := nowIso })
    nowIso2 u r w.id
    { id := usageKey u r, user_id := u, wallet_id := w.id,
      request_id := r, action := act, amount := amt, status := .reserved,
      created_at := nowIso, updated_at := nowIso }
    { w with quota_used := w.quota_used + amt
             updated_at := nowIso
             last_usage_at := some nowIso }
    w.quota_used
    hr (by simp [setUsage]) rfl rfl hfind1 harith
  rw [hroll]
  refine ⟨rfl, rfl, ?_, ?_⟩
  · simp [setUsage]
  · rw [findWallet_setUsage]
    rw [findWallet_found_update _ w.id _
      (fun x => { x with quota_used := w.quota_used, updated_at := nowIso2 })
      (fun x => rfl) hfind1]
    simp

/-- Witness for C3 at the concrete base store. -/
theorem reserve_rollback_roundtrip_witness :
    (reserveUsage baseStore baseNow "u1" "r1" "ai_detect" 1).1.status = .reserved
    ∧ (rollbackUsage (reserveUsage baseStore baseNow "u1" "r1" "ai_detect" 1).2
        baseNow "u1" "r1").1 = some .rolled_back
    ∧ ((rollbackUsage (reserveUsage baseStore baseNow "u1" "r1" "ai_detect" 1).2
        baseNow "u1" "r1").2.usages (usageKey "u1" "r1")).map (fun x => x.status)
        = some .rolled_back
    ∧ (findWallet (rollbackUsage
        (reserveUsage baseStore baseNow "u1" "r1" "ai_detect" 1).2
        baseNow "u1" "r1").2 baseWallet.id).map (fun x => x.quota_used)
        = some baseWallet.quota_used :=
  reserve_rollback_roundtrip baseStore baseNow baseNow "u1" "r1" "ai_detect" 1
    baseSub baseWallet "2025-02-01T00:00:00.000Z" (by decide) (by decide)
    (by decide) (by decide) (by decide) (by decide) (by decide) (by decide)
    (by decide) (by decide) (by decide) (by decide) (by decide)

/-! ## C5: quota-exceeded rejection and boundary behavior -/

/-- C5: when Reserve finds no usage document for the request and
`quota_used + amount > quota_total`, it returns `allowed = false`,
`status = rejected`, `remaining = max(0, quota_total − quota_used)` and
performs no writes; at the boundary, a Reserve with
`quota_used = quota_total − 1` and amount 1 succeeds (remaining 0), and a
subsequent Reserve with a different fresh `requestId` is rejected. -/
theorem reserve_boundary (s : Store) (nowIso u r act : String) (amt : Int)
    (sub : SubscriptionDoc) (w : QuotaWalletDoc) (e : String)
    (hr : r ≠ "") (hs : s.subscriptions u = some sub) (hact : sub.is_active = true)
    (hpc : (getPlanConfigById sub.plan_id).isSome = true)
    (hw : getActiveWallet s u = some w) (he : w.period_end = some e)
    (hne : e ≠ "") (hlt : strLt nowIso e = true)
    (hfind : findWallet s w.id = some w) (hwact : w.status = .active)
    (hu : s.usages (usageKey u r) = none) :
    (w.quota_used + amt > w.quota_total →
      reserveUsage s nowIso u r act amt
        = ({ allowed := false, status := .rejected,
             remaining := max 0 (w.quota_total - w.quota_used),
             walletId := some w.id }, s))
    ∧ (∀ r2 : String, w.quota_used = w.quota_total - 1 → r2 ≠ "" → r2 ≠ r →
        s.usages (usageKey u r2) = none →
        (reserveUsage s nowIso u r act 1).1
            = { allowed := true, status := .reserved, remaining := 0,
                walletId := some w.id }
        ∧ (reserveUsage (reserveUsage s nowIso u r act 1).2 nowIso u r2 act 1).1.allowed
            = false
        ∧ (reserveUsage (reserveUsage s nowIso u r act 1).2 nowIso u r2 act 1).1.status
            = .rejected) := by
  constructor
  · intro hover
    exact reserveUsage_reject_over s nowIso u r act amt sub w e hr hs hact hpc
      hw he hne hlt hfind hwact hu hover
  · intro r2 hb hr2 hr2r hu2
    have hnotover : ¬(w.quota_used + 1 > w.quota_total) := by omega
    have hres := reserveUsage_success s nowIso u r act 1 sub w e hr hs hact hpc
      hw he hne hlt hfind hwact hu hnotover
    have hrem : max 0 (w.quota_total - (w.quota_used + 1)) = 0 := by
      have h0 : w.quota_total - (w.quota_used + 1) = 0 := by omega
      rw [h0]
      exact max_self 0
    have hga1 : getActiveWallet
          (setUsage
            (updateWalletById s w.id (fun x =>
              { x with quota_used := w.quota_used + 1
                       updated_at := nowIso
                       last_usage_at := some nowIso }))
            (usageKey u r)
            { id := usageKey u r, user_id := u, wallet_id := w.id,
              request_id := r, action := act, amount := 1, status := .reserved,
              created_at := nowIso, updated_at := nowIso }) u
          = some { w with quota_used := w.quota_used + 1
                          updated_at := nowIso
                          last_usage_at := some nowIso } := by
      rw [getActiveWallet_setUsage]
      rw [getActiveWallet_updateWalletById s u w.id
        (fun x => { x with quota_used := w.quota_used + 1
                           updated_at := nowIso
                           last_usage_at := some nowIso })
        (fun x => rfl) (fun x => rfl) (fun x => rfl), hw]
      simp
    have hfind1 : findWallet
          (setUsage
            (updateWalletById s w.id (fun x =>
              { x with quota_used := w.quota_used + 1
                       updated_at := nowIso
                       last_usage_at := some nowIso }))
            (usageKey u r)
            { id := usageKey u r, user_id := u, wallet_id := w.id,
              request_id := r, action := act, amount := 1, status := .reserved,
              created_at := nowIso, updated_at := nowIso }) w.id
          = some { w with quota_used := w.quota_used + 1
                          updated_at := nowIso
                          last_usage_at := some nowIso } := by
      rw [findWallet_setUsage]
      exact findWallet_found_update s w.id w _ (fun x => rfl) hfind
    have hu2' : (setUsage
          (updateWalletById s w.id (fun x =>
            { x with quota_used := w.quota_used + 1
                     updated_at := nowIso
                     last_usage_at := some nowIso }))
          (usageKey u r)
          { id := usageKey u r, user_id := u, wallet_id := w.id,
            request_id := r, action := act, amount := 1, status := .reserved,
            created_at := nowIso, updated_at := nowIso }).usages (usageKey u r2)
        = none := by
      show (if usageKey u r2 = usageKey u r then _ else s.usages (usageKey u r2))
          = none
      rw [if_neg (fun hk => hr2r (usageKey_inj hk)), hu2]
    have hover2 : ({ w with quota_used := w.quota_used + 1
                            updated_at := nowIso
                            last_usage_at := some nowIso }
          : QuotaWalletDoc).quota_used + 1
        > ({ w with quota_used := w.quota_used + 1
                    updated_at := nowIso
                    last_usage_at := some nowIso } : QuotaWalletDoc).quota_total := by
      show w.quota_used + 1 + 1 > w.quota_total
      omega
    have hs1 : (setUsage
          (updateWalletById s w.id (fun x =>
            { x with quota_used := w.quota_used + 1
                     updated_at := nowIso
                     last_usage_at := some nowIso }))
          (usageKey u r)
          { id := usageKey u r, user_id := u, wallet_id := w.id,
            request_id := r, action := act, amount := 1, status := .reserved,
            created_at := nowIso, updated_at := nowIso }).subscriptions u
        = some sub := hs
    have hrej := reserveUsage_reject_over
      (setUsage
        (updateWalletById s w.id (fun x =>
          { x with quota_used := w.quota_used + 1
                   updated_at := nowIso
                   last_usage_at := some nowIso }))
        (usageKey u r)
        { id := usageKey u r, user_id := u, wallet_id := w.id,
          request_id := r, action := act, amount := 1, status := .reserved,
          created_at := nowIso, updated_at := nowIso })
      nowIso u r2 act 1 sub
      { w with quota_used := w.quota_used + 1
               updated_at := nowIso
               last_usage_at := some nowIso }
      e hr2 hs1 hact hpc hga1 he hne hlt hfind1 hwact hu2' hover2
    refine ⟨by rw [hres]; simp [hrem], ?_, ?_⟩
    · rw [hres, hrej]
    · rw [hres, hrej]

/-! ## C6: webhook processing is idempotent -/

theorem processEvent_of_present (s : Store) (nowIso : String)
    (p : RevenueCatEventContext) (d : WebhookEventDoc)
    (hd : s.webhookEvents (getWebhookEventId p) = some d) :
    processRevenueCatEvent s nowIso p = s := by
  unfold processRevenueCatEvent
  simp [hd]

theorem processEvent_webhook_present (s : Store) (nowIso : String)
    (p : RevenueCatEventContext) :
    ∃ d, (processRevenueCatEvent s nowIso p).webhookEvents (getWebhookEventId p)
      = some d := by
  unfold processRevenueCatEvent
  cases h : s.webhookEvents (getWebhookEventId p) with
  | some d =>
    simp only [h]
    exact ⟨d, rfl⟩
  | none =>
    simp only [h, if_pos rfl]
    exact ⟨_, rfl⟩

/-- Witness for C5 at the boundary store (99 of 100 used). -/
theorem reserve_boundary_witness :
    (reserveUsage boundaryStore baseNow "u1" "rA" "ai_detect" 5
        = ({ allowed := false, status := .rejected, remaining := 1,
             walletId := some "w1" }, boundaryStore))
    ∧ (reserveUsage boundaryStore baseNow "u1" "rA" "ai_detect" 1).1
        = { allowed := true, status := .reserved, remaining := 0,
            walletId := some "w1" }
    ∧ (reserveUsage (reserveUsage boundaryStore baseNow "u1" "rA" "ai_detect" 1).2
        baseNow "u1" "rB" "ai_detect" 1).1.allowed = false
    ∧ (reserveUsage (reserveUsage boundaryStore baseNow "u1" "rA" "ai_detect" 1).2
        baseNow "u1" "rB" "ai_detect" 1).1.status = .rejected := by
  have h := reserve_boundary boundaryStore baseNow "u1" "rA" "ai_detect" 5
    baseSub boundaryWallet "2025-02-01T00:00:00.000Z" (by decide) (by decide)
    (by decide) (by decide) (by decide) (by decide) (by decide) (by decide)
    (by decide) (by decide) (by decide)
  have h2 := h.2 "rB" (by decide) (by decide) (by decide) (by decide)
  refine ⟨?_, ?_, h2.2.1, h2.2.2⟩
  · rw [h.1 (by decide)]
    simp only [Prod.mk.injEq]
    exact ⟨by decide, trivial⟩
  · rw [h2.1]
    decide

/-! ## C7: wallet-opening condition of the webhook processor -/

theorem codePlanChanged_eq (np : Option PlanConfig) (epid : Option String) :
    codePlanChanged np epid
      = claimPlanChangedAmended (np.map (fun pl => pl.planId)) epid := by
  cases np <;> cases epid <;> rfl

theorem codePeriodChanged_eq (pe ee : Option String) :
    codePeriodChanged (orOpt pe ee) ee = claimPeriodChangedAmended pe ee := by
  cases pe <;> cases ee <;>
    simp [codePeriodChanged, claimPeriodChangedAmended, orOpt]

theorem length_closeWallets (s : Store) (nowIso u reason : String) (z : Bool) :
    (closeWalletsForUser s nowIso u reason z).wallets.length = s.wallets.length := by
  simp [closeWalletsForUser]

theorem length_openWallet (s : Store) (nowIso : String) (sub : SubscriptionDoc)
    (ce : Bool) :
    ((openWalletForSubscription s nowIso sub ce).2).wallets.length
      = s.wallets.length
        + (if (getPlanConfigById sub.plan_id).isSome then 1 else 0) := by
  unfold openWalletForSubscription
  cases h : getPlanConfigById sub.plan_id with
  | none => simp [h]
  | some pc =>
    simp only [h, Option.isSome_some, if_pos]
    cases ce with
    | true => simp [length_closeWallets]
    | false => simp

set_option maxRecDepth 400000 in
/-- Counterexample to C7 as stated: for an existing subscription whose
`plan_id` is null and a cancellation-category event whose product resolves to
`premium_monthly`, the stated `planChanged` ("resolved plan id differs from
existing plan id") is true and the derived `isActive` is true, yet the code's
null-guarded `planChanged` is false and no wallet is opened. -/
theorem shouldOpen_stated_refuted :
    claimShouldOpenStated (nullPlanStore.subscriptions "u1") cancelPayload
        (normalizeEventType cancelPayload.eventType) = true
    ∧ (processRevenueCatEvent nullPlanStore baseNow cancelPayload).wallets.length
        = nullPlanStore.wallets.length := by
  constructor
  · decide
  · decide

/-- C7 (amended): for a non-duplicate billing event, `shouldOpenWallet`
equals `isActive AND (eventIsPurchase OR planChanged OR periodChanged)` where
`planChanged` additionally requires a present, non-empty existing plan id and
`periodChanged` additionally requires a present, non-empty existing period
end; a new wallet document is actually created iff `shouldOpenWallet` holds
and the written subscription's plan id resolves in the catalog. -/
theorem shouldOpen_spec (s : Store) (nowIso : String) (p : RevenueCatEventContext)
    (hdup : s.webhookEvents (getWebhookEventId p) = none) :
    (processRevenueCatEvent s nowIso p).wallets.length
      = s.wallets.length
        + (if (subscriptionTransition (s.subscriptions p.userId) p
                (normalizeEventType p.eventType) nowIso).shouldOpenWallet
              && (getPlanConfigById (subscriptionTransition (s.subscriptions p.userId)
                    p (normalizeEventType p.eventType) nowIso).updates.plan_id).isSome
           then 1 else 0)
    ∧ (subscriptionTransition (s.subscriptions p.userId) p
          (normalizeEventType p.eventType) nowIso).shouldOpenWallet
      = ((subscriptionTransition (s.subscriptions p.userId) p
            (normalizeEventType p.eventType) nowIso).isActive
        && (isPurchaseEvent (normalizeEventType p.eventType)
          || claimPlanChangedAmended
              ((nextPlanOf (s.subscriptions p.userId) p).map (fun pl => pl.planId))
              ((s.subscriptions p.userId).bind (fun x => x.plan_id))
          || claimPeriodChangedAmended p.periodEnd
              ((s.subscriptions p.userId).bind (fun x => x.current_period_end)))) := by
  constructor
  · unfold processRevenueCatEvent
    simp only [hdup]
    by_cases ho : (subscriptionTransition (s.subscriptions p.userId) p
        (normalizeEventType p.eventType) nowIso).shouldOpenWallet
    · simp only [ho, if_pos, Bool.true_and]
      by_cases hc : (subscriptionTransition (s.subscriptions p.userId) p
          (normalizeEventType p.eventType) nowIso).shouldCloseWallet
      · simp [hc, length_openWallet, length_closeWallets]
      · simp [hc, length_openWallet]
    · simp only [ho, Bool.false_and, if_neg, Bool.false_eq_true, if_false]
      by_cases hc : (subscriptionTransition (s.subscriptions p.userId) p
          (normalizeEventType p.eventType) nowIso).shouldCloseWallet
      · simp [hc, length_closeWallets]
      · simp [hc]
  · simp only [subscriptionTransition]
    rw [codePlanChanged_eq, codePeriodChanged_eq]

set_option maxRecDepth 400000 in
/-- Witness for C7 (amended): a renewal for a fresh user opens one wallet. -/
theorem shouldOpen_spec_witness :
    (processRevenueCatEvent emptyStore baseNow purchasePayload).wallets.length
      = emptyStore.wallets.length
        + (if (subscriptionTransition (emptyStore.subscriptions "u1") purchasePayload
                (normalizeEventType purchasePayload.eventType) baseNow).shouldOpenWallet
              && (getPlanConfigById (subscriptionTransition
                    (emptyStore.subscriptions "u1") purchasePayload
                    (normalizeEventType purchasePayload.eventType)
                    baseNow).updates.plan_id).isSome
           then 1 else 0)
    ∧ (subscriptionTransition (emptyStore.subscriptions "u1") purchasePayload
          (normalizeEventType purchasePayload.eventType) baseNow).shouldOpenWallet
      = ((subscriptionTransition (emptyStore.subscriptions "u1") purchasePayload
            (normalizeEventType purchasePayload.eventType) baseNow).isActive
        && (isPurchaseEvent (normalizeEventType purchasePayload.eventType)
          || claimPlanChangedAmended
              ((nextPlanOf (emptyStore.subscriptions "u1") purchasePayload).map
                (fun pl => pl.planId))
              ((emptyStore.subscriptions "u1").bind (fun x => x.plan_id))
          || claimPeriodChangedAmended purchasePayload.periodEnd
              ((emptyStore.subscriptions "u1").bind (fun x => x.current_period_end)))) :=
  shouldOpen_spec emptyStore baseNow purchasePayload (by decide)

/-- C6: for a payload with a stable derived event id, processing the same
billing event again finds the existing `webhook_events` document, performs no
subscription or wallet writes, and returns: the store after N ≥ 1 calls
equals the store after one call, whatever the later call's timestamp. -/
theorem processEvent_idempotent (s : Store) (now1 now2 : String)
    (p : RevenueCatEventContext) :
    processRevenueCatEvent (processRevenueCatEvent s now1 p) now2 p
      = processRevenueCatEvent s now1 p := by
  obtain ⟨d, hd⟩ := processEvent_webhook_present s now1 p
  exact processEvent_of_present _ now2 p d hd

theorem addDays_succ (d : Cal.CivilDate) (k : Nat) :
    Cal.addDays d (k + 1) = Cal.nextDay (Cal.addDays d k) := by
  induction k generalizing d with
  | zero => rfl
  | succ k ih =>
    show Cal.addDays (Cal.nextDay d) (k + 1) = _
    rw [ih (Cal.nextDay d)]
    rfl

theorem addDays_within (y m : Nat) : ∀ (k d : Nat), 1 ≤ d →
    d + k ≤ Cal.daysInMonth y m →
    Cal.addDays ⟨y, m, d⟩ k = ⟨y, m, d + k⟩ := by
  intro k
  induction k with
  | zero => intro d _ _; rfl
  | succ k ih =>
    intro d hd hle
    show Cal.addDays (Cal.nextDay ⟨y, m, d⟩) k = _
    have hlt : d < Cal.daysInMonth y m := by omega
    have hnext : Cal.nextDay ⟨y, m, d⟩ = ⟨y, m, d + 1⟩ := by
      unfold Cal.nextDay
      simp [hlt]
    rw [hnext, ih (d + 1) (by omega) (by omega)]
    congr 1
    omega

theorem dateUTC_first_of_next (y m : Nat) (h1 : 1 ≤ m) (h2 : m ≤ 12) :
    Cal.dateUTC y m 1 = firstOfNextMonth ⟨y, m, 1⟩ := by
  unfold Cal.dateUTC firstOfNextMonth
  by_cases hm : m = 12
  · subst hm
    simp [Cal.addDays]
  · have hlt : m < 12 := by omega
    simp [Cal.addDays, Nat.div_eq_of_lt hlt, Nat.mod_eq_of_lt hlt, hm]

theorem daysInMonth_year_irrel (y y2 m : Nat) (hm : m ≠ 2) :
    Cal.daysInMonth y m = Cal.daysInMonth y2 m := by
  unfold Cal.daysInMonth
  simp [hm]

/-! ## C9: synthetic period of a plan sync -/

/-- Counterexample to C9 as stated: a yearly plan sync at the leap day
2024-02-29T12:00:00Z produces `Date.UTC(2025, 1, 29)`, which normalizes to
2025-03-01 — not "the same UTC month and day one year after t". -/
theorem syncPeriod_leap_day_not_same :
    (syncPeriod .yearly ⟨⟨2024, 2, 29⟩, 43200000⟩).2 = ⟨⟨2025, 3, 1⟩, 0⟩
    ∧ (syncPeriod .yearly ⟨⟨2024, 2, 29⟩, 43200000⟩).2
        ≠ ⟨sameDayNextYear ⟨2024, 2, 29⟩, 0⟩ := by
  constructor
  · decide
  · decide

/-- C9 (amended): a plan sync at UTC time `t` writes period start `t`; for a
monthly plan the period end is midnight UTC on the first day of the month
after `t`; for a yearly plan it is midnight UTC on the same month and day one
year after `t`, except that a sync on February 29 yields March 1 of the next
year (the `Date.UTC` day overflow). -/
theorem syncPeriod_spec (now : Cal.Instant) (hv : Cal.Valid now.date) :
    (syncPeriod .monthly now).1 = now
    ∧ (syncPeriod .yearly now).1 = now
    ∧ (syncPeriod .monthly now).2 = ⟨firstOfNextMonth now.date, 0⟩
    ∧ (syncPeriod .yearly now).2 =
        (if now.date.month = 2 ∧ now.date.day = 29
         then ⟨⟨now.date.year + 1, 3, 1⟩, 0⟩
         else ⟨sameDayNextYear now.date, 0⟩) := by
  obtain ⟨⟨y, m, dd⟩, ms⟩ := now
  obtain ⟨h1, h2, h3, h4⟩ := hv
  simp only at h1 h2 h3 h4
  refine ⟨rfl, rfl, ?_, ?_⟩
  · show (⟨Cal.dateUTC y ((m - 1) + 1) 1, 0⟩ : Cal.Instant) = _
    have hm1 : (m - 1) + 1 = m := by omega
    rw [hm1, dateUTC_first_of_next y m h1 h2]
    rfl
  · show (⟨Cal.dateUTC (y + 1) (m - 1) dd, 0⟩ : Cal.Instant) = _
    have hbase : Cal.dateUTC (y + 1) (m - 1) dd
        = Cal.addDays ⟨y + 1, m, 1⟩ (dd - 1) := by
      unfold Cal.dateUTC
      have hlt : m - 1 < 12 := by omega
      rw [Nat.div_eq_of_lt hlt, Nat.mod_eq_of_lt hlt]
      congr 2
      omega
    rw [hbase]
    by_cases hfeb : m = 2 ∧ dd = 29
    · obtain ⟨hm2, hd29⟩ := hfeb
      subst hm2
      subst hd29
      have hleap : Cal.isLeap y = true := by
        by_cases hl : Cal.isLeap y
        · exact hl
        · unfold Cal.daysInMonth at h4
          simp [hl] at h4
      have hy4 : y % 4 = 0 := by
        unfold Cal.isLeap at hleap
        simp only [Bool.and_eq_true, beq_iff_eq] at hleap
        exact hleap.1
      have hnl : Cal.isLeap (y + 1) = false := by
        unfold Cal.isLeap
        simp only [Bool.and_eq_false_iff]
        left
        simp only [beq_eq_false_iff_ne, ne_eq]
        omega
      have hdim : Cal.daysInMonth (y + 1) 2 = 28 := by
        unfold Cal.daysInMonth
        simp [hnl]
      have h27 : Cal.addDays ⟨y + 1, 2, 1⟩ 27 = ⟨y + 1, 2, 28⟩ :=
        addDays_within (y + 1) 2 27 1 (by omega) (by omega)
      have h28 : Cal.addDays ⟨y + 1, 2, 1⟩ (29 - 1) = ⟨y + 1, 3, 1⟩ := by
        rw [show (29 - 1 : Nat) = 27 + 1 from rfl, addDays_succ, h27]
        unfold Cal.nextDay
        simp [hdim]
      rw [h28, if_pos ⟨rfl, rfl⟩]
    · have hdd : dd ≤ Cal.daysInMonth (y + 1) m := by
        by_cases hm2 : m = 2
        · subst hm2
          have hd28 : dd ≤ 28 := by
            unfold Cal.daysInMonth at h4
            by_cases hl : Cal.isLeap y <;> simp [hl] at h4 <;> omega
          have : 28 ≤ Cal.daysInMonth (y + 1) 2 := by
            unfold Cal.daysInMonth
            by_cases hl : Cal.isLeap (y + 1) <;> simp [hl]
          omega
        · rw [daysInMonth_year_irrel (y + 1) y m hm2]
          exact h4
      rw [addDays_within (y + 1) m (dd - 1) 1 (by omega) (by omega)]
      rw [if_neg hfeb]
      unfold sameDayNextYear
      have hda : 1 + (dd - 1) = dd := by omega
      rw [hda]

/-- Witness for C9 (amended) at the claim's own example: a monthly sync at
2025-01-31T12:00:00Z ends the period at 2025-02-01T00:00:00Z. -/
theorem syncPeriod_spec_witness :
    (syncPeriod .monthly ⟨⟨2025, 1, 31⟩, 43200000⟩).2 = ⟨⟨2025, 2, 1⟩, 0⟩ := by
  have h := (syncPeriod_spec ⟨⟨2025, 1, 31⟩, 43200000⟩ (by decide)).2.2.1
  rw [h]
  decide

/-! ## C8: webhook event document id -/

set_option maxRecDepth 200000 in
/-- Counterexample to C8 as stated: with no provider event id and the
lower-case payload event type `"renewal"`, the hash composite uses the event
type exactly as given in the payload (`getWebhookEventId` runs before the
caller's normalization), so the document id differs from the one computed
over the uppercased event type. -/
theorem webhook_id_not_uppercased :
    getWebhookEventId hashedIdPayload ≠ claimEventDocIdStated hashedIdPayload := by
  decide

/-- C8 (amended): the webhook event document id is `rc_` + providerEventId
when that id is present and non-empty, and otherwise `rc_` +
sha256(userId + ":" + eventType + ":" + periodStart + ":" + periodEnd)
computed over the event type as given in the payload (not uppercased), with
absent period fields contributing the empty string. -/
theorem webhook_id_spec (p : RevenueCatEventContext) :
    getWebhookEventId p = claimEventDocIdAmended p := by
  unfold getWebhookEventId claimEventDocIdAmended jsTruthy
  cases h : p.eventId with
  | none => simp
  | some e =>
    by_cases he : e = "" <;> simp [he]

/-- Witness for C10 at a concrete store. -/
theorem reserve_unresolvable_plan_witness :
    ensureActiveWallet unknownPlanStore baseNow "u1" unknownPlanSub
        = (none, unknownPlanStore)
    ∧ reserveUsage unknownPlanStore baseNow "u1" "r9" "ai_detect" 1
        = (rejectedZero, unknownPlanStore) :=
  reserve_unresolvable_plan unknownPlanStore baseNow "u1" "r9" "ai_detect" 1
    unknownPlanSub (by decide) (by decide) (by decide)

/-! ## C1: quota-bounds invariant under Reserve/Commit/Rollback sequences -/

theorem closeWallets_ids (s : Store) (nowIso u reason : String) (z : Bool) :
    (closeWalletsForUser s nowIso u reason z).wallets.map (fun w => w.id)
      = s.wallets.map (fun w => w.id) := by
  simp only [closeWalletsForUser, List.map_map]
  congr 1
  funext w
  by_cases h : isActiveWalletFor u w <;> simp [h]

theorem storeInv_closeWallets (s : Store) (nowIso u reason : String) (z : Bool)
    (hinv : StoreInv s) : StoreInv (closeWalletsForUser s nowIso u reason z) := by
  obtain ⟨hb, hu, hn, hf⟩ := hinv
  refine ⟨?_, hu, ?_, ?_⟩
  · intro x hx
    simp only [closeWalletsForUser, List.mem_map] at hx
    obtain ⟨w, hw, rfl⟩ := hx
    obtain ⟨hbw1, hbw2⟩ := hb w hw
    by_cases h : isActiveWalletFor u w
    · simp only [h, if_pos]
      refine ⟨?_, ?_⟩ <;> cases z <;> simp <;> omega
    · simp only [h, Bool.false_eq_true, if_false]
      exact ⟨hbw1, hbw2⟩
  · rw [closeWallets_ids]
    exact hn
  · intro x hx
    simp only [closeWalletsForUser, List.mem_map] at hx
    obtain ⟨w, hw, rfl⟩ := hx
    have hfw := hf w hw
    by_cases h : isActiveWalletFor u w
    · simpa [h] using hfw
    · simpa [h] using hfw

theorem freshWalletId_length (n : Nat) : (freshWalletId n).length = 7 + n := by
  show (("wallet_" : String) ++ ⟨List.replicate n 'w'⟩).length = 7 + n
  rw [String.length_append]
  simp [String.length]

theorem storeInv_appendFresh (s : Store) (w : QuotaWalletDoc) (hinv : StoreInv s)
    (hb : WalletBounds w) (hlen : w.id.length = 7 + s.nextWalletId) :
    StoreInv { s with wallets := s.wallets ++ [w]
                      nextWalletId := s.nextWalletId + 1 } := by
  obtain ⟨hbnd, hu, hn, hf⟩ := hinv
  refine ⟨?_, hu, ?_, ?_⟩
  · intro x hx
    rcases List.mem_append.mp hx with h | h
    · exact hbnd x h
    · have hxw : x = w := by simpa using h
      subst hxw
      exact hb
  · show ((s.wallets ++ [w]).map (fun x => x.id)).Nodup
    rw [List.map_append]
    refine List.Nodup.append hn (by simp) ?_
    intro a ha hb2
    simp only [List.map_cons, List.map_nil, List.mem_singleton] at hb2
    subst hb2
    simp only [List.mem_map] at ha
    obtain ⟨y, hy, hyid⟩ := ha
    have h1 := hf y hy
    rw [hyid, hlen] at h1
    omega
  · intro x hx
    rcases List.mem_append.mp hx with h | h
    · have h2 := hf x h
      show x.id.length < 7 + (s.nextWalletId + 1)
      omega
    · have hxw : x = w := by simpa using h
      subst hxw
      show x.id.length < 7 + (s.nextWalletId + 1)
      rw [hlen]
      omega

theorem storeInv_openWallet (s : Store) (nowIso : String) (sub : SubscriptionDoc)
    (ce : Bool) (hinv : StoreInv s) :
    StoreInv ((openWalletForSubscription s nowIso sub ce).2) := by
  unfold openWalletForSubscription
  cases hpc : getPlanConfigById sub.plan_id with
  | none => exact hinv
  | some pc =>
    simp only
    have hq := planConfig_quota_nonneg hpc
    cases ce with
    | false =>
      exact storeInv_appendFresh s _ hinv ⟨le_refl 0, hq⟩ (freshWalletId_length _)
    | true =>
      exact storeInv_appendFresh _ _
        (storeInv_closeWallets s nowIso sub.user_id "plan_change" false hinv)
        ⟨le_refl 0, hq⟩ (freshWalletId_length _)

theorem storeInv_ensureActive (s : Store) (nowIso u : String)
    (sub : SubscriptionDoc) (hinv : StoreInv s) :
    StoreInv ((ensureActiveWallet s nowIso u sub).2) := by
  unfold ensureActiveWallet
  simp only []
  repeat' split
  all_goals first
    | exact hinv
    | exact storeInv_openWallet _ nowIso sub true
        (storeInv_closeWallets s nowIso u "period_reset" false hinv)

theorem updateWallets_ids (s : Store) (wid : String)
    (f : QuotaWalletDoc → QuotaWalletDoc) (hf : ∀ x, (f x).id = x.id) :
    (updateWalletById s wid f).wallets.map (fun w => w.id)
      = s.wallets.map (fun w => w.id) := by
  simp only [updateWalletById, List.map_map]
  congr 1
  funext w
  by_cases h : w.id = wid <;> simp [h, hf]

theorem storeInv_setUsage (s : Store) (k : String) (d : QuotaUsageDoc)
    (hinv : StoreInv s) (hd : 0 ≤ d.amount) : StoreInv (setUsage s k d) := by
  obtain ⟨hb, hu, hn, hf⟩ := hinv
  refine ⟨hb, ?_, hn, hf⟩
  intro k' d' h
  simp only [setUsage] at h
  by_cases hk : k' = k
  · rw [if_pos hk] at h
    cases h
    exact hd
  · rw [if_neg hk] at h
    exact hu k' d' h

theorem storeInv_walletValue (s : Store) (wid : String) (wd : QuotaWalletDoc)
    (v : Int) (f : QuotaWalletDoc → QuotaWalletDoc)
    (hinv : StoreInv s)
    (hfld : ∀ x, (f x).id = x.id ∧ (f x).quota_total = x.quota_total
      ∧ (f x).quota_used = v)
    (hwd : findWallet s wid = some wd)
    (h0 : 0 ≤ v) (hle : v ≤ wd.quota_total) :
    StoreInv (updateWalletById s wid f) := by
  obtain ⟨hb, hu, hn, hf2⟩ := hinv
  have hwdmem : wd ∈ s.wallets := by
    unfold findWallet at hwd
    exact List.mem_of_find?_eq_some hwd
  have hwdid : wd.id = wid := by
    unfold findWallet at hwd
    have h2 := List.find?_some hwd
    simpa using h2
  refine ⟨?_, hu, ?_, ?_⟩
  · intro x hx
    simp only [updateWalletById, List.mem_map] at hx
    obtain ⟨y, hy, rfl⟩ := hx
    by_cases h : (y.id == wid)
    · have hyid : y.id = wid := by simpa using h
      have hyeq : y = wd :=
        List.inj_on_of_nodup_map hn hy hwdmem (by rw [hyid, hwdid])
      simp only [h, if_pos]
      obtain ⟨-, hq2, hq3⟩ := hfld y
      refine ⟨?_, ?_⟩
      · rw [hq3]
        exact h0
      · rw [hq3, hq2, hyeq]
        exact hle
    · simp only [h, Bool.false_eq_true, if_false]
      exact hb y hy
  · rw [updateWallets_ids s wid f (fun x => (hfld x).1)]
    exact hn
  · intro x hx
    simp only [updateWalletById, List.mem_map] at hx
    obtain ⟨y, hy, rfl⟩ := hx
    have hfy := hf2 y hy
    by_cases h : (y.id == wid)
    · simp only [h, if_pos]
      show (f y).id.length < 7 + s.nextWalletId
      rw [(hfld y).1]
      exact hfy
    · simp only [h, Bool.false_eq_true, if_false]
      exact hfy

theorem storeInv_reserve (s : Store) (nowIso u r act : String) (amt : Int)
    (hinv : StoreInv s) (hamt : 1 ≤ amt) :
    StoreInv ((reserveUsage s nowIso u r act amt).2) := by
  unfold reserveUsage
  by_cases hr : r = ""
  · simp only [hr, if_pos]
    exact hinv
  · simp only [hr, if_neg, if_false]
    cases hsub : s.subscriptions u with
    | none => exact hinv
    | some sub =>
      simp only
      by_cases hact : (!sub.is_active) = true
      · simp only [hact, if_true]
        exact hinv
      · simp only [hact, Bool.false_eq_true, if_false]
        cases hE : ensureActiveWallet s nowIso u sub with
        | mk wopt s1 =>
          have hinv1 : StoreInv s1 := by
            have h2 := storeInv_ensureActive s nowIso u sub hinv
            rw [hE] at h2
            exact h2
          cases wopt with
          | none => exact hinv1
          | some wallet =>
            simp only
            cases hF : findWallet s1 wallet.id with
            | none => exact hinv1
            | some wd =>
              simp only
              by_cases hst : wd.status ≠ WalletStatus.active
              · rw [if_pos hst]
                exact hinv1
              · rw [if_neg hst]
                cases hU : s1.usages (usageKey u r) with
                | some ex => exact hinv1
                | none =>
                  simp only
                  by_cases hov : wd.quota_used + amt > wd.quota_total
                  · rw [if_pos hov]
                    exact hinv1
                  · rw [if_neg hov]
                    have hwdb := hinv1.1 wd (by
                      unfold findWallet at hF
                      exact List.mem_of_find?_eq_some hF)
                    have hid : wd.id = wallet.id := by
                      unfold findWallet at hF
                      have h2 := List.find?_some hF
                      simpa using h2
                    refine storeInv_setUsage _ _ _ ?_
                      (show (0:Int) ≤ amt by omega)
                    refine storeInv_walletValue s1 wd.id wd
                      (wd.quota_used + amt) _ hinv1
                      (fun x => ⟨rfl, rfl, rfl⟩) (by rw [hid]; exact hF) ?_ ?_
                    · have := hwdb.1
                      omega
                    · omega

theorem storeInv_commit (s : Store) (nowIso u r : String) (hinv : StoreInv s) :
    StoreInv ((commitUsage s nowIso u r).2) := by
  unfold commitUsage
  by_cases hr : r = ""
  · simp only [hr, if_pos]
    exact hinv
  · simp only [hr, if_neg, if_false]
    cases hU : s.usages (usageKey u r) with
    | none => exact hinv
    | some usage =>
      simp only
      have hua : 0 ≤ usage.amount := hinv.2.1 _ usage hU
      by_cases h1 : usage.status = UsageStatus.committed
      · simp only [h1, if_pos]
        exact hinv
      · simp only [h1, if_false]
        by_cases h2 : usage.status = UsageStatus.rolled_back
        · simp only [h2, if_pos]
          exact hinv
        · simp only [h2, if_false]
          exact storeInv_setUsage _ _ _ hinv hua

theorem storeInv_rollback (s : Store) (nowIso u r : String) (hinv : StoreInv s) :
    StoreInv ((rollbackUsage s nowIso u r).2) := by
  unfold rollbackUsage
  by_cases hr : r = ""
  · simp only [hr, if_pos]
    exact hinv
  · simp only [hr, if_neg, if_false]
    cases hU : s.usages (usageKey u r) with
    | none => exact hinv
    | some usage =>
      simp only
      have hua : 0 ≤ usage.amount := hinv.2.1 _ usage hU
      by_cases h1 : usage.status = UsageStatus.rolled_back
      · simp only [h1, if_pos]
        exact hinv
      · simp only [h1, if_false]
        by_cases h2 : usage.status = UsageStatus.committed
        · simp only [h2, if_pos]
          exact hinv
        · simp only [h2, if_false]
          cases hF : findWallet s usage.wallet_id with
          | none =>
            simp only
            exact storeInv_setUsage _ _ _ hinv hua
          | some wallet =>
            simp only
            refine storeInv_setUsage _ _ _ ?_ hua
            have hwb := hinv.1 wallet (by
              unfold findWallet at hF
              exact List.mem_of_find?_eq_some hF)
            refine storeInv_walletValue s usage.wallet_id wallet
              (max 0 (wallet.quota_used - usage.amount)) _ hinv
              (fun x => ⟨rfl, rfl, rfl⟩) hF (le_max_left 0 _) ?_
            refine max_le ?_ ?_
            · have := hwb.1
              have := hwb.2
              omega
            · have := hwb.2
              omega

theorem storeInv_applyOp (u : String) (s : Store) (op : QuotaOp)
    (hinv : StoreInv s) (hamt : 1 ≤ op.amount) :
    StoreInv (applyQuotaOp u s op) := by
  cases op with
  | reserve nowIso r act a => exact storeInv_reserve s nowIso u r act a hinv hamt
  | commit nowIso r => exact storeInv_commit s nowIso u r hinv
  | rollback nowIso r => exact storeInv_rollback s nowIso u r hinv

theorem storeInv_applyOps (u : String) :
    ∀ (l : List QuotaOp) (s : Store), StoreInv s → (∀ op ∈ l, 1 ≤ op.amount) →
      StoreInv (applyQuotaOps u s l) := by
  intro l
  induction l with
  | nil => intro s hs _; exact hs
  | cons a t ih =>
    intro s hs hl
    exact ih (applyQuotaOp u s a)
      (storeInv_applyOp u s a hs (hl a (List.mem_cons_self a t)))
      (fun op hop => hl op (List.mem_cons_of_mem a hop))

/-- C1: starting from a well-formed store (wallet bounds hold, recorded usage
amounts are non-negative, wallet ids are distinct and the id counter fresh),
after every operation of any finite sequence of Reserve/Commit/Rollback
operations whose reserve amounts are ≥ 1, every wallet still satisfies
`0 ≤ quota_used ≤ quota_total`. -/
theorem wallet_bounds_invariant (s0 : Store) (u : String) (ops : List QuotaOp)
    (hinv : StoreInv s0) (hamts : ∀ op ∈ ops, 1 ≤ op.amount) :
    ∀ n, ∀ w ∈ (applyQuotaOps u s0 (ops.take n)).wallets,
      0 ≤ w.quota_used ∧ w.quota_used ≤ w.quota_total := by
  intro n
  have h := storeInv_applyOps u (ops.take n) s0 hinv
    (fun op hop => hamts op (List.mem_of_mem_take hop))
  exact fun w hw => (h.1) w hw

/-- Witness for C1: a concrete reserve/commit/reserve/rollback sequence on
the base store keeps every wallet within bounds. -/
theorem wallet_bounds_invariant_witness :
    ((applyQuotaOps "u1" baseStore (opsEx.take 4)).wallets.all
      (fun w => decide (0 ≤ w.quota_used) && decide (w.quota_used ≤ w.quota_total)))
      = true := by
  have h := wallet_bounds_invariant baseStore "u1" opsEx
    ⟨by decide, fun k d hkd => by exact absurd hkd (by simp [baseStore]),
      by decide, by decide⟩
    (by decide) 4
  rw [List.all_eq_true]
  intro w hw
  have h2 := h w hw
  simp [h2.1, h2.2]

end Quota
